import Mathlib

/-!
# Entity-component core of the naali viewer

A shallow embedding of `src/framework/ComponentManager.h` and of the
entity copy / paste / enumeration code of
`src/ECEditorModule/ECEditorWindow.cpp`.

Conventions of the embedding:

* `std::string` is `String`; the ordering of `std::map<std::string, _>` keys
  (lexicographic on the characters) is `a.data < b.data`.
* `entity_id_t` (an unsigned 32 bit integer) is `Nat`.
* A smart pointer that may be empty is an `Option`.
* A `void` member function that mutates the object returns the new object.
* A call that does not complete normally (a failed `assert`, a dereferenced
  empty pointer, a vector read past its end) is `Except.error` with the
  matching `Fault`; `assert` is the checked C `assert`.
-/

namespace Foundation

/-- Ways in which a call can end without completing normally. -/
inductive Fault where
  | assertionFailed
  | nullDereference
  | indexOutOfRange
  deriving DecidableEq, Repr

/-- The strict ordering of `std::less<std::string>`: lexicographic on the characters. -/
abbrev keyLess (a b : String) : Prop := a.data < b.data

/-- Lookup in the ordered entries, the list view of `std::map::find`. -/
def findEntry {V : Type} (k : String) : List (String × V) → Option V
  | [] => none
  | (k1, v1) :: rest => if k = k1 then some v1 else findEntry k rest

/-- The list view of `m[k] = v`: the entry of `k` is overwritten when there is one,
and is otherwise inserted at its place in the key order. -/
def assignEntry {V : Type} (k : String) (v : V) : List (String × V) → List (String × V)
  | [] => [(k, v)]
  | (k1, v1) :: rest =>
    if keyLess k k1 then (k, v) :: (k1, v1) :: rest
    else if k = k1 then (k, v) :: rest
    else (k1, v1) :: assignEntry k v rest

/-- The list view of `std::map::erase(find(k))`: the node of `k` is unlinked. -/
def eraseEntry {V : Type} (k : String) : List (String × V) → List (String × V)
  | [] => []
  | (k1, v1) :: rest => if k = k1 then rest else (k1, v1) :: eraseEntry k rest

/-- The invariant of a `std::map<std::string, V>`: iteration meets the keys in strictly
ascending order. -/
abbrev Ordered {V : Type} (entries : List (String × V)) : Prop :=
  entries.Pairwise (fun a b => keyLess a.1 b.1)

/-- The `std::map<std::string, V>` container: its entries in iteration order. Every
map the program can build satisfies `Ordered` on them. -/
structure StdMap (V : Type) where
  entries : List (String × V)
  deriving DecidableEq, Repr

/-- Result of `std::map::find`: the mapped value, `none` standing for `end()`. -/
def StdMap.find {V : Type} (m : StdMap V) (k : String) : Option V :=
  findEntry k m.entries

/-- The statement `m[k] = v`. -/
def StdMap.assign {V : Type} (m : StdMap V) (k : String) (v : V) : StdMap V :=
  ⟨assignEntry k v m.entries⟩

/-- The statement `m.erase(m.find(k))` for a key that is present. -/
def StdMap.erase {V : Type} (m : StdMap V) (k : String) : StdMap V :=
  ⟨eraseEntry k m.entries⟩

/-- The C `assert`: the call goes on when the condition holds and is aborted otherwise. -/
def assert (condition : Bool) : Except Fault Unit :=
  if condition then .ok () else .error .assertionFailed

/-- Modelled from the spec: `AttributeChange::Type`, declared in a header that is not
among the sources. The spec lists the classifications `Local`, `Replicate`
(network-authoritative) and `Disconnected` (no notification). -/
inductive AttributeChange where
  | Disconnected
  | Local
  | Replicate
  deriving DecidableEq, Repr

/-- Modelled from the spec: `AttributeInterface` (its header is not among the sources):
a named value with a string form. -/
structure AttributeInterface where
  name : String
  value : String
  deriving DecidableEq, Repr

/-- Modelled from the spec: `GetNameString() -> name`. -/
def AttributeInterface.GetNameString (self : AttributeInterface) : String := self.name

/-- Modelled from the spec: `ToString() -> string`, the string form of the value. -/
def AttributeInterface.ToString (self : AttributeInterface) : String := self.value

/-- Modelled from the spec: `FromString(string, AttributeChange)`. The payload is taken
to be one the attribute accepts (the editor only passes the `ToString` of an attribute),
so the string form becomes the payload. "Side effect: on successful mutation, triggers
the owning component's change-notification path tagged with the supplied AttributeChange
classification"; `Disconnected` applies silently. The result is the attribute after the
call and the classification with which `ComponentChanged` is invoked on the owning
component, `none` when it is not invoked. -/
def AttributeInterface.FromString (self : AttributeInterface) (str : String)
    (change : AttributeChange) : AttributeInterface × Option AttributeChange :=
  ({ self with value := str },
    if change = AttributeChange.Disconnected then none else some change)

/-- Modelled from the spec: `ComponentInterface` (its header is not among the sources):
type name, instance name, serializable flag, ordered attributes and the change
classification returned by `GetChange()`. -/
structure ComponentInterface where
  typeName : String
  name : String
  serializable : Bool
  attributes : List AttributeInterface
  change : AttributeChange
  deriving DecidableEq, Repr

/-- Modelled from the spec: `TypeName()`. -/
def ComponentInterface.TypeName (self : ComponentInterface) : String := self.typeName

/-- Modelled from the spec: `Name()`. -/
def ComponentInterface.Name (self : ComponentInterface) : String := self.name

/-- Modelled from the spec: `IsSerializable()`. -/
def ComponentInterface.IsSerializable (self : ComponentInterface) : Bool := self.serializable

/-- Modelled from the spec: `GetAttributes() -> ordered sequence`. -/
def ComponentInterface.GetAttributes (self : ComponentInterface) : List AttributeInterface :=
  self.attributes

/-- Modelled from the spec: `GetChange()`, the change classification of the component. -/
def ComponentInterface.GetChange (self : ComponentInterface) : AttributeChange := self.change

/-- Position of the first attribute called `name` in an attribute sequence. -/
def findAttribute (name : String) : List AttributeInterface → Option Nat
  | [] => none
  | a :: rest =>
    if a.GetNameString = name then some 0 else (findAttribute name rest).map (· + 1)

/-- Modelled from the spec: `GetAttribute(name) -> AttributeInterface*|null`. The pointer
is the position of the attribute in the sequence of the component. -/
def ComponentInterface.GetAttribute (self : ComponentInterface) (name : String) : Option Nat :=
  findAttribute name self.attributes

/-- A call of `FromString(str, change)` through the attribute pointer `p` of the
component: the component after the call and the classification with which the call
invokes `ComponentChanged` on the component, `none` when it does not. -/
def ComponentInterface.attributeFromString (self : ComponentInterface) (p : Nat) (str : String)
    (change : AttributeChange) : ComponentInterface × Option AttributeChange :=
  match self.attributes[p]? with
  | some a =>
    ({ self with attributes := self.attributes.set p (a.FromString str change).1 },
      (a.FromString str change).2)
  | none => (self, none)

/-- Modelled from the spec: `ComponentFactoryInterface` (its header is not among the
sources), a component constructor: what a component of the type starts with. -/
structure ComponentFactoryInterface where
  serializable : Bool
  attributes : List AttributeInterface
  deriving DecidableEq, Repr

/-- The type `ComponentFactoryInterfacePtr`. -/
abbrev ComponentFactoryInterfacePtr := ComponentFactoryInterface

/-- The type `ComponentInterfacePtr`: a component, or the empty pointer. -/
abbrev ComponentInterfacePtr := Option ComponentInterface

/-- The container `ComponentManager::ComponentFactoryMap`. -/
abbrev ComponentFactoryMap := StdMap ComponentFactoryInterfacePtr

/-- The class `ComponentManager`: the registry `mFactories`. -/
structure ComponentManager where
  mFactories : ComponentFactoryMap
  deriving DecidableEq, Repr

/-- The member `ComponentManager::registerFactory`. -/
def ComponentManager.registerFactory (self : ComponentManager) (component : String)
    (factory : ComponentFactoryInterfacePtr) : Except Fault ComponentManager := do
  assert (self.mFactories.find component).isNone
  pure { mFactories := self.mFactories.assign component factory }

/-- The member `ComponentManager::unregisterFactory`. -/
def ComponentManager.unregisterFactory (self : ComponentManager) (component : String) :
    Except Fault ComponentManager := do
  let iter := self.mFactories.find component
  assert iter.isSome
  pure { mFactories := self.mFactories.erase component }

/-- Modelled from the spec: `ComponentManager::createComponent`, declared in
`ComponentManager.h` with its body in a file that is not among the sources. The spec:
the empty pointer for a type name that is not registered, otherwise the registered
constructor builds a component whose `TypeName` is set at construction. -/
def ComponentManager.createComponent (self : ComponentManager) (componentName : String) :
    ComponentInterfacePtr :=
  match self.mFactories.find componentName with
  | none => none
  | some factory =>
    some { typeName := componentName, name := "", serializable := factory.serializable,
           attributes := factory.attributes, change := AttributeChange.Disconnected }

/-- Modelled from the spec: `GetComponentFactoryMap() -> ordered mapping typeName -> factory`,
the accessor the editor calls. -/
def ComponentManager.GetComponentFactoryMap (self : ComponentManager) : ComponentFactoryMap :=
  self.mFactories

end Foundation

namespace Scene

open Foundation

/-- Modelled from the spec: `Scene::Entity` (its header is not among the sources): an
integer id and the ordered components the entity owns. -/
structure Entity where
  id : Nat
  components : List ComponentInterface
  deriving DecidableEq, Repr

/-- The type `Scene::EntityPtr`: an entity, or the empty pointer. -/
abbrev EntityPtr := Option Entity

/-- Modelled from the spec: `GetId()`. -/
def Entity.GetId (self : Entity) : Nat := self.id

/-- Modelled from the spec: `GetComponentVector() -> ordered sequence`. -/
def Entity.GetComponentVector (self : Entity) : List ComponentInterface := self.components

/-- Position of the first component of type `type_name` in a component vector. -/
def findComponent (type_name : String) : List ComponentInterface → Option Nat
  | [] => none
  | c :: rest =>
    if c.TypeName = type_name then some 0 else (findComponent type_name rest).map (· + 1)

/-- Position of the first component of type `type_name` and instance name `name` in a
component vector. -/
def findComponentNamed (type_name name : String) : List ComponentInterface → Option Nat
  | [] => none
  | c :: rest =>
    if c.TypeName = type_name ∧ c.Name = name then some 0
    else (findComponentNamed type_name name rest).map (· + 1)

/-- Modelled from the spec: `GetComponent(typeName, instanceName) -> ComponentPtr|null`. The
pointer is the position of the component in the vector of the entity. -/
def Entity.GetComponent (self : Entity) (type_name name : String) : Option Nat :=
  findComponentNamed type_name name self.components

/-- Modelled from the spec: `AddComponent(component, AttributeChange)`. The pair of type
name and instance name is "unique within an owning entity (re-adding the same pair is a
no-op)": a component whose pair the entity already has is not added; any other component
goes to the end of the vector (insertion order is addition order). -/
def Entity.AddComponent (self : Entity) (component : ComponentInterface)
    (_change : AttributeChange) : Entity :=
  match self.GetComponent component.TypeName component.Name with
  | some _ => self
  | none => { self with components := self.components ++ [component] }

/-- Modelled from the spec: `GetOrCreateComponent(typeName, AttributeChange)`: "returns
existing match if present, else creates via ComponentManager and adds". The returned
pointer is the position of the component in the vector of the entity; it is empty when
the component manager returns the empty pointer. -/
def Entity.GetOrCreateComponent (mgr : ComponentManager) (self : Entity) (type_name : String)
    (change : AttributeChange) : Entity × Option Nat :=
  match findComponent type_name self.components with
  | some p => (self, some p)
  | none =>
    match mgr.createComponent type_name with
    | some new_comp => (self.AddComponent new_comp change, some self.components.length)
    | none => (self, none)

/-- The component behind a component pointer of the entity. -/
def Entity.deref (self : Entity) (p : Nat) : Option ComponentInterface := self.components[p]?

/-- The entity after the component behind the pointer `p` has become `component`. -/
def Entity.store (self : Entity) (p : Nat) (component : ComponentInterface) : Entity :=
  { self with components := self.components.set p component }

/-- Modelled from the spec: `Scene::SceneManager` (its header is not among the sources):
the entities of the scene, in creation order. -/
structure SceneManager where
  entities : List Entity
  deriving DecidableEq, Repr

/-- The type `Scene::ScenePtr`: a scene, or the empty pointer. -/
abbrev ScenePtr := Option SceneManager

/-- Modelled from the spec: `GetEntity(id) -> EntityPtr|null`. -/
def SceneManager.GetEntity (self : SceneManager) (id : Nat) : EntityPtr :=
  self.entities.find? (fun e => decide (e.GetId = id))

/-- An id above every id in use. -/
def SceneManager.freshId (self : SceneManager) : Nat :=
  (self.entities.map Entity.GetId).foldr max 0 + 1

/-- Modelled from the spec: `CreateEntity() -> EntityPtr` "(assigns a fresh unique id)":
the scene with the new, empty entity and the new entity. -/
def SceneManager.CreateEntity (self : SceneManager) : SceneManager × Entity :=
  let entity : Entity := { id := self.freshId, components := [] }
  ({ entities := self.entities ++ [entity] }, entity)

/-- The scene after the entity with the id of `entity` has become `entity`: what the
scene holds once changes were made through an entity pointer. -/
def SceneManager.store (self : SceneManager) (entity : Entity) : SceneManager :=
  { entities := self.entities.map (fun e => if e.GetId = entity.GetId then entity else e) }

end Scene

namespace Foundation

/-- Modelled from the spec: `Foundation::Framework` (its header is not among the sources),
as far as the editor uses it: the component manager and the scene that
`GetScene("World")` returns, the empty pointer when there is no scene of that name. -/
structure Framework where
  componentManager : ComponentManager
  worldScene : Scene.ScenePtr
  deriving DecidableEq, Repr

/-- The accessor `GetComponentManager()`. -/
def Framework.GetComponentManager (self : Framework) : ComponentManager := self.componentManager

end Foundation

namespace ECEditor

open Foundation Scene

/-- An element of a `QDomDocument`: tag name and attributes. What `SerializeTo` appends
below an element is not part of the model; the call itself is recorded as a `Call`. -/
structure QDomElement where
  tagName : String
  attributes : List (String × String)
  deriving DecidableEq, Repr

/-- The call `QDomElement::attribute(name)`: the value of the attribute, the empty string
when the element has no such attribute. -/
def QDomElement.attribute (self : QDomElement) (name : String) : String :=
  match findEntry name self.attributes with
  | some value => value
  | none => ""

/-- A `QDomDocument`: its top-level elements in document order. -/
structure QDomDocument where
  children : List QDomElement
  deriving DecidableEq, Repr

/-- The call `QDomDocument::firstChildElement(tagName)`, `none` for the null element. -/
def QDomDocument.firstChildElement (self : QDomDocument) (tagName : String) :
    Option QDomElement :=
  self.children.find? (fun e => decide (e.tagName = tagName))

/-- The call `QDomDocument::appendChild(element)`. -/
def QDomDocument.appendChild (self : QDomDocument) (element : QDomElement) : QDomDocument :=
  { children := self.children ++ [element] }

/-- The cast `(int)` of an `entity_id_t`, an unsigned integer of 32 bits. -/
def toInt (entity_id : Nat) : Int :=
  if entity_id % 2 ^ 32 < 2 ^ 31 then ((entity_id % 2 ^ 32 : Nat) : Int)
  else ((entity_id % 2 ^ 32 : Nat) : Int) - 2 ^ 32

/-- The call `QString::setNum(int)`: the decimal form of the number. -/
def setNum (n : Int) : String := n.repr

/-- The calls the editor makes on its collaborators, as far as the properties of the
editor speak of them: the receiver is named by entity id and component type name. -/
inductive Call where
  | LogWarning (message : String)
  | FromString (entity : Nat) (component : String) (attributeName : String) (str : String)
      (change : AttributeChange)
  | ComponentChanged (entity : Nat) (component : String) (change : AttributeChange)
  | SerializeTo (component : ComponentInterface) (parent : QDomElement)
  deriving DecidableEq, Repr

/-- The loop of `ECEditorWindow::GetAvailableComponents` from the iterator position whose
remaining entries are the first argument. The `QString` made from `i->first.c_str()` is
the key. -/
def GetAvailableComponents.loop : List (String × ComponentFactoryInterfacePtr) →
    List String → List String
  | [], components => components
  | i :: rest, components => GetAvailableComponents.loop rest (components ++ [i.1])

/-- The member `ECEditorWindow::GetAvailableComponents`. -/
def GetAvailableComponents (framework_ : Framework) : List String :=
  let comp_mgr := framework_.GetComponentManager
  let factories := comp_mgr.GetComponentFactoryMap
  GetAvailableComponents.loop factories.entries []

/-- The element `CopyEntity` builds for an entity before the components are serialized:
`createElement("entity")` and `setAttribute("id", id_str)`. -/
def CopyEntity.entityElement (entity : Entity) : QDomElement :=
  let id_str := setNum (toInt entity.GetId)
  { tagName := "entity", attributes := [("id", id_str)] }

/-- The inner loop of `ECEditorWindow::CopyEntity` over the component vector. -/
def CopyEntity.componentLoop (entity_elem : QDomElement) :
    List ComponentInterface → List Call → List Call
  | [], calls => calls
  | c :: rest, calls =>
    if c.IsSerializable then
      CopyEntity.componentLoop entity_elem rest (calls ++ [Call.SerializeTo c entity_elem])
    else
      CopyEntity.componentLoop entity_elem rest calls

/-- The outer loop of `ECEditorWindow::CopyEntity` over the selected entities. -/
def CopyEntity.entityLoop : List EntityPtr → QDomDocument → List Call →
    QDomDocument × List Call
  | [], temp_doc, calls => (temp_doc, calls)
  | none :: rest, temp_doc, calls => CopyEntity.entityLoop rest temp_doc calls
  | some entity :: rest, temp_doc, calls =>
    let entity_elem := CopyEntity.entityElement entity
    let calls1 := CopyEntity.componentLoop entity_elem entity.GetComponentVector calls
    CopyEntity.entityLoop rest (temp_doc.appendChild entity_elem) calls1

/-- The member `ECEditorWindow::CopyEntity` on the vector `GetSelectedEntities()` returned:
the document whose text goes to the clipboard and the calls made, in order. -/
def CopyEntity (entities : List EntityPtr) : QDomDocument × List Call :=
  CopyEntity.entityLoop entities { children := [] } []

/-- The call of `ComponentChanged` that an attribute mutation raises on the owning
component, when it raises one. -/
def notification (entity : Nat) (component : String) : Option AttributeChange → List Call
  | some change => [Call.ComponentChanged entity component change]
  | none => []

/-- The attribute loop of `ECEditorWindow::PasteEntity`, `remaining` iterations before its
end: `attributes` is the attribute vector of the source component `components[i]`,
`component` the component of the new entity. The body reads `attributes[i]`. -/
def PasteEntity.attributeLoop (entity : Nat) (attributes : List AttributeInterface) (i : Nat) :
    (remaining : Nat) → ComponentInterface → List Call →
    Except Fault (ComponentInterface × List Call)
  | 0, component, calls => .ok (component, calls)
  | remaining + 1, component, calls =>
    match attributes[i]? with
    | none => .error .indexOutOfRange
    | some a =>
      match component.GetAttribute a.GetNameString with
      | some attriubte =>
        let written := component.attributeFromString attriubte a.ToString AttributeChange.Local
        PasteEntity.attributeLoop entity attributes i remaining written.1
          (calls ++ [Call.FromString entity component.TypeName a.GetNameString a.ToString
              AttributeChange.Local]
            ++ notification entity component.TypeName written.2)
      | none => PasteEntity.attributeLoop entity attributes i remaining component calls

/-- The component loop of `ECEditorWindow::PasteEntity` from index `i` on: the second
argument holds `components[i]`, `components[i+1]`, ... -/
def PasteEntity.componentLoop (mgr : ComponentManager) :
    (i : Nat) → List ComponentInterface → Entity → List Call →
    Except Fault (Entity × List Call)
  | _, [], newEntity, calls => .ok (newEntity, calls)
  | i, source :: rest, newEntity, calls =>
    match newEntity.GetOrCreateComponent mgr source.TypeName source.GetChange with
    | (_, none) => .error .nullDereference
    | (newEntity1, some p) =>
      match newEntity1.deref p with
      | none => .error .nullDereference
      | some component =>
        if component.IsSerializable then
          let attributes := source.GetAttributes
          match PasteEntity.attributeLoop newEntity1.GetId attributes i attributes.length
              component calls with
          | .error fault => .error fault
          | .ok (component1, calls1) =>
            PasteEntity.componentLoop mgr (i + 1) rest (newEntity1.store p component1)
              (calls1 ++ [Call.ComponentChanged newEntity1.GetId component1.TypeName
                AttributeChange.Local])
        else
          PasteEntity.componentLoop mgr (i + 1) rest newEntity1
            (calls ++ [Call.ComponentChanged newEntity1.GetId component.TypeName
              AttributeChange.Local])

/-- The warning `PasteEntity` logs when the scene has no entity of the id. -/
def PasteEntity.warning (id : String) : String :=
  "ECEditorWindow cannot create a new copy of entity, cause scene manager couldn't find entity. (id "
    ++ id ++ ")."

/-- The member `ECEditorWindow::PasteEntity`. `ParseString` is `ParseString<entity_id_t>`,
declared in a header that is not among the sources; `clipboard` is the document
`temp_doc.setContent(clipboard->text())` yields, `none` when the text does not parse.
`CreateEntity` returns an entity, so `assert(newEntity.get())` holds and the `return`
after it is not taken. The result is the framework after the call and the calls made, in
order. -/
def PasteEntity (ParseString : String → Nat) (framework_ : Framework)
    (clipboard : Option QDomDocument) : Except Fault (Framework × List Call) :=
  match framework_.worldScene with
  | none => .error .assertionFailed
  | some scene =>
    match clipboard with
    | none => .ok (framework_, [])
    | some temp_doc =>
      match temp_doc.firstChildElement "entity" with
      | none => .ok (framework_, [])
      | some ent_elem =>
        let id := ent_elem.attribute "id"
        match scene.GetEntity (ParseString id) with
        | none => .ok (framework_, [Call.LogWarning (PasteEntity.warning id)])
        | some originalEntity =>
          let created := scene.CreateEntity
          let components := originalEntity.GetComponentVector
          match PasteEntity.componentLoop framework_.GetComponentManager 0 components
              created.2 [] with
          | .error fault => .error fault
          | .ok (newEntity, calls) =>
            .ok ({ framework_ with worldScene := some (created.1.store newEntity) }, calls)

/-- The type names of a component vector after `GetOrCreateComponent` was called for each of
`types` in turn, `present` being the type names the entity had before. -/
def addTypes : List String → List String → List String
  | [], present => present
  | t :: rest, present => addTypes rest (if t ∈ present then present else present ++ [t])

/-- The list without the repetitions of its members: each member stays where it first
occurs. -/
def firstOccurrences : List String → List String
  | [] => []
  | t :: rest => t :: (firstOccurrences rest).filter (fun u => decide (u ≠ t))

/-- Every component of the entity is as the component manager builds a component of its
type: the type is registered and the serializable flag is the one of the factory. -/
def Built (mgr : ComponentManager) (entity : Entity) : Prop :=
  ∀ c ∈ entity.components, ∃ f, mgr.mFactories.find c.TypeName = some f ∧
    c.IsSerializable = f.serializable

/-- The number of calls `ComponentChanged(AttributeChange::Local)` among `calls`. -/
def changedCalls (calls : List Call) : Nat :=
  calls.countP (fun call =>
    match call with
    | Call.ComponentChanged _ _ AttributeChange.Local => true
    | _ => false)

/-- The calls of one attribute copy on the component of type `component` of the entity
`entity`: `FromString(str, Local)` on the attribute `copy.1` with the string `copy.2`, and
the `ComponentChanged(Local)` that this mutation raises on the component. -/
def copyCalls (entity : Nat) (component : String) (copy : String × String) : List Call :=
  [Call.FromString entity component copy.1 copy.2 AttributeChange.Local,
   Call.ComponentChanged entity component AttributeChange.Local]

/-- The calls of one iteration of the component loop of `PasteEntity` on the component of
type `component` of the entity `entity`: the calls of its attribute copies, then the
`ComponentChanged(Local)` that `PasteEntity` calls itself. -/
def iterationCalls (entity : Nat) (component : String) (copies : List (String × String)) :
    List Call :=
  copies.flatMap (copyCalls entity component)
    ++ [Call.ComponentChanged entity component AttributeChange.Local]

/-- The `SerializeTo` calls that are due for one selected entity pointer: none for the
empty pointer, else one for each serializable component of the entity, in vector order,
with the `entity` element of the entity as parent. -/
def serializeCalls : EntityPtr → List Call
  | none => []
  | some entity =>
    (entity.GetComponentVector.filter ComponentInterface.IsSerializable).map
      (fun c => Call.SerializeTo c (CopyEntity.entityElement entity))

end ECEditor

namespace Foundation

/-- Modelled from the spec: `SetName` of the component capability set. -/
def ComponentInterface.SetName (self : ComponentInterface) (name : String) : ComponentInterface :=
  { self with name := name }

/-- Modelled from the spec: `CreateComponent(typeName) -> ComponentPtr|null`, the spelling
under which the editor calls `createComponent`. -/
def ComponentManager.CreateComponent (self : ComponentManager) (type_name : String) :
    ComponentInterfacePtr :=
  self.createComponent type_name

/-- Modelled from the spec: `CreateComponent(typeName, instanceName) -> ComponentPtr|null`:
"same as above but sets `Name` post-construction". -/
def ComponentManager.CreateComponentNamed (self : ComponentManager) (type_name name : String) :
    ComponentInterfacePtr :=
  (self.CreateComponent type_name).map (fun component => component.SetName name)

end Foundation

namespace Scene

open Foundation

/-- Modelled from the spec: `RemoveComponent(component, AttributeChange)`: the component
behind the pointer leaves the vector. -/
def Entity.RemoveComponent (self : Entity) (component : Nat) (_change : AttributeChange) :
    Entity :=
  { self with components := self.components.eraseIdx component }

end Scene

namespace ECEditor

open Foundation Scene

/-- An item of the entity list: its text and whether it is selected. -/
structure QListWidgetItem where
  text : String
  selected : Bool
  deriving DecidableEq, Repr

/-- The call `QListWidgetItem::isSelected()`. -/
def QListWidgetItem.isSelected (self : QListWidgetItem) : Bool := self.selected

/-- The widget `entity_list_`: its items in row order. -/
structure QListWidget where
  items : List QListWidgetItem
  deriving DecidableEq, Repr

/-- The cast `(entity_id_t)` of an `int`. -/
def toEntityId (n : Int) : Nat := (n % 2 ^ 32).toNat

/-- The loop of `ECEditorWindow::GetSelectedEntities` over the rows that are left. `toInt`
is `QString::toInt`. -/
def GetSelectedEntities.loop (toInt : String → Int) (scene : SceneManager) :
    List QListWidgetItem → List EntityPtr → List EntityPtr
  | [], ret => ret
  | item :: rest, ret =>
    if item.isSelected then
      let id := toEntityId (toInt item.text)
      match scene.GetEntity id with
      | some entity => GetSelectedEntities.loop toInt scene rest (ret ++ [some entity])
      | none => GetSelectedEntities.loop toInt scene rest ret
    else
      GetSelectedEntities.loop toInt scene rest ret

/-- The member `ECEditorWindow::GetSelectedEntities`. `entity_list_` is empty when the
window has no entity list; `defaultWorldScene` is what
`framework_->GetDefaultWorldScene()` returns. -/
def GetSelectedEntities (toInt : String → Int) (entity_list_ : Option QListWidget)
    (defaultWorldScene : ScenePtr) : List EntityPtr :=
  match entity_list_ with
  | none => []
  | some list =>
    match defaultWorldScene with
    | none => []
    | some scene => GetSelectedEntities.loop toInt scene list.items []

/-- The entity behind an entity pointer of a vector: `changed` holds the entities that
were changed through pointers of the vector, the latest change first, and `entity` is the
entity as it was when the vector was filled. Pointers to the entity of one id are
pointers to one entity. -/
def pointee (changed : List Entity) (entity : Entity) : Entity :=
  match changed.find? (fun e => decide (e.GetId = entity.GetId)) with
  | some e => e
  | none => entity

/-- The vector of entity pointers with the entities as they are after the changes. -/
def pointees (changed : List Entity) (entities : List EntityPtr) : List EntityPtr :=
  entities.map (fun ptr => ptr.map (pointee changed))

/-- The loop of `ECEditorWindow::CreateComponent` over the selected entities that are
left, `entities[i]`, `entities[i+1]`, ..., for the type name and the name the dialogs
returned. The pointer `comp` is dereferenced by `SetName` whether or not it is empty;
`SetName` changes the component behind `comp`, which is in the vector of the entity when
`AddComponent` put it there. -/
def CreateComponent.entityLoop (mgr : ComponentManager) (typeName name : String) :
    List EntityPtr → List Entity → Except Fault (List Entity)
  | [], changed => .ok changed
  | ptr :: rest, changed =>
    let comp : ComponentInterfacePtr :=
      if name ≠ "" then mgr.CreateComponentNamed typeName name
      else mgr.CreateComponent typeName
    match comp with
    | some component =>
      match ptr with
      | none => .error .nullDereference
      | some snapshot =>
        let entity := pointee changed snapshot
        let added := entity.AddComponent component AttributeChange.Local
        let named :=
          match entity.GetComponent component.TypeName component.Name with
          | some _ => added
          | none => added.store entity.components.length (component.SetName name)
        CreateComponent.entityLoop mgr typeName name rest (named :: changed)
    | none => .error .nullDereference

/-- The call `QInputDialog::getItem(..., items, 0, false, &ok)` of a dialog that is not
editable, when the user accepts it with the item of row `row`: the text of that item, the
empty string when the list has no such item. -/
def getItem (items : List String) (row : Nat) : String :=
  match items[row]? with
  | some text => text
  | none => ""

/-- The member `ECEditorWindow::CreateComponent`. `typeChoice` is the row the user chose
in the type dialog over `GetAvailableComponents()` and `nameChoice` the text of the name
dialog, each `none` when `ok` is false; `entities` is the vector `GetSelectedEntities()`
returns. The result is the vector with the entities as they are after the call. -/
def CreateComponent (framework_ : Framework) (typeChoice : Option Nat)
    (nameChoice : Option String) (entities : List EntityPtr) :
    Except Fault (List EntityPtr) :=
  match typeChoice with
  | none => .ok entities
  | some row =>
    let typeName := getItem (GetAvailableComponents framework_) row
    if typeName = "" then .ok entities
    else
      match nameChoice with
      | none => .ok entities
      | some name =>
        match CreateComponent.entityLoop framework_.GetComponentManager typeName name
            entities [] with
        | .error fault => .error fault
        | .ok changed => .ok (pointees changed entities)

/-- The calls of `ECEditorWindow::DeleteComponent` on the selected entities and on the
window. -/
inductive EntityCall where
  | RemoveComponent (entity : Nat) (component : ComponentInterfacePtr)
      (change : AttributeChange)
  | BoldEntityListItem (entity_id : Nat) (bold : Bool)
  deriving DecidableEq, Repr

/-- The loop of `ECEditorWindow::DeleteComponent` over the selected entities that are
left, `entities[i]`, `entities[i+1]`, ... -/
def DeleteComponent.entityLoop (componentType name : String) :
    List EntityPtr → List Entity → List EntityCall →
    Except Fault (List Entity × List EntityCall)
  | [], changed, calls => .ok (changed, calls)
  | none :: _, _, _ => .error .nullDereference
  | some snapshot :: rest, changed, calls =>
    let entity := pointee changed snapshot
    match entity.GetComponent componentType name with
    | some component =>
      DeleteComponent.entityLoop componentType name rest
        (entity.RemoveComponent component AttributeChange.Local :: changed)
        (calls ++ [EntityCall.RemoveComponent entity.GetId (entity.deref component)
            AttributeChange.Local,
          EntityCall.BoldEntityListItem entity.GetId false])
    | none => DeleteComponent.entityLoop componentType name rest changed calls

/-- The member `ECEditorWindow::DeleteComponent`. `entities` is the vector
`GetSelectedEntities()` returns. The result is the vector with the entities as they are
after the call and the calls made, in order. -/
def DeleteComponent (componentType name : String) (entities : List EntityPtr) :
    Except Fault (List EntityPtr × List EntityCall) :=
  if componentType = "" then .ok (entities, [])
  else
    match DeleteComponent.entityLoop componentType name entities [] [] with
    | .error fault => .error fault
    | .ok (changed, calls) => .ok (pointees changed entities, calls)

/-- The calls that are due for one selected entity in `DeleteComponent`: when the entity
has a component of the type and the instance name, `RemoveComponent` on the first such
component and the call that takes the bold face from the list item of the entity; no
call otherwise. -/
def removalCalls (componentType name : String) (entity : Entity) : List EntityCall :=
  match entity.components.find?
      (fun c => decide (c.TypeName = componentType ∧ c.Name = name)) with
  | some component =>
    [EntityCall.RemoveComponent entity.GetId (some component) AttributeChange.Local,
     EntityCall.BoldEntityListItem entity.GetId false]
  | none => []

end ECEditor

namespace ECEditor

open Foundation Scene

/-- The call `QListWidget::count()`. -/
def QListWidget.count (self : QListWidget) : Nat := self.items.length

/-- The call `QListWidget::addItem(text)`: a new item with the text, not selected, at the
end of the list. -/
def QListWidget.addItem (self : QListWidget) (text : String) : QListWidget :=
  { items := self.items ++ [⟨text, false⟩] }

/-- The call `QListWidget::takeItem(row)`: the item of the row leaves the list. -/
def QListWidget.takeItem (self : QListWidget) (row : Nat) : QListWidget :=
  { items := self.items.eraseIdx row }

/-- The call `QListWidget::setCurrentRow(row)` in the selection mode `ExtendedSelection`
that `Initialize` sets: the item of the row becomes the current item and is selected. -/
def QListWidget.setCurrentRow (self : QListWidget) (row : Nat) : QListWidget :=
  { items := self.items.modify (fun item => { item with selected := true }) row }

/-- The call `QString::number(n)` for an unsigned integer of 32 bits: its decimal form. -/
def number (n : Nat) : String := Nat.repr (n % 2 ^ 32)

/-- The search loop of `AddUniqueListItem` from row `i` on: the second argument holds the
items of the rows `i`, `i+1`, ... The result is the row returned from inside the loop. -/
def AddUniqueListItem.loop (name : String) : (i : Nat) → List QListWidgetItem → Option Nat
  | _, [] => none
  | i, item :: rest =>
    if item.text = name then some i else AddUniqueListItem.loop name (i + 1) rest

/-- The function `AddUniqueListItem`: the list after the call and the row returned. -/
def AddUniqueListItem (list : QListWidget) (name : String) : QListWidget × Nat :=
  match AddUniqueListItem.loop name 0 list.items with
  | some i => (list, i)
  | none =>
    let added := list.addItem name
    (added, added.count - 1)

/-- The member `ECEditorWindow::AddEntity`: the entity list after the call. -/
def AddEntity (isVisible : Bool) (entity_list_ : Option QListWidget) (entity_id : Nat) :
    Option QListWidget :=
  match entity_list_ with
  | none => none
  | some list =>
    if isVisible then
      let entity_id_str := setNum (toInt entity_id)
      let added := AddUniqueListItem list entity_id_str
      some (added.1.setCurrentRow added.2)
    else some list

/-- The loop of `ECEditorWindow::RemoveEntity` at row `i`, with `fuel` bounding the number
of iterations that are left; `text` is `QString::number(entity_id)`. After `takeItem(i)`
the loop goes on with `i + 1`. -/
def RemoveEntity.loop (text : String) : (fuel : Nat) → (i : Nat) → QListWidget → QListWidget
  | 0, _, list => list
  | fuel + 1, i, list =>
    match list.items[i]? with
    | none => list
    | some item =>
      if item.text = text then RemoveEntity.loop text fuel (i + 1) (list.takeItem i)
      else RemoveEntity.loop text fuel (i + 1) list

/-- The member `ECEditorWindow::RemoveEntity`: the entity list after the call. The loop
ends after at most `count()` iterations. -/
def RemoveEntity (entity_list_ : Option QListWidget) (entity_id : Nat) : Option QListWidget :=
  match entity_list_ with
  | none => none
  | some list => some (RemoveEntity.loop (number entity_id) list.count 0 list)

/-- The loop of `ECEditorWindow::DeleteEntitiesFromList`, downwards from row `next - 1`
to row 0. The call `item(i)` returns the empty pointer for a row the list does not
have. -/
def DeleteEntitiesFromList.loop : (next : Nat) → QListWidget → Except Fault QListWidget
  | 0, list => .ok list
  | i + 1, list =>
    match list.items[i]? with
    | none => .error .nullDereference
    | some item =>
      if item.isSelected then DeleteEntitiesFromList.loop i (list.takeItem i)
      else DeleteEntitiesFromList.loop i list

/-- The member `ECEditorWindow::DeleteEntitiesFromList`: the entity list after the call;
`hasFocus` is what `entity_list_->hasFocus()` returns. -/
def DeleteEntitiesFromList (entity_list_ : Option QListWidget) (hasFocus : Bool) :
    Except Fault (Option QListWidget) :=
  match entity_list_ with
  | none => .ok none
  | some list =>
    if hasFocus then
      match DeleteEntitiesFromList.loop list.count list with
      | .error fault => .error fault
      | .ok after => .ok (some after)
    else .ok (some list)

/-- The calls of `ECEditorWindow::RefreshPropertyBrowser` on the browser and on the
window. -/
inductive BrowserCall where
  | clear
  | hide
  | show
  | UpdateBrowser
  | AddNewEntity (entity : Nat)
  | RemoveEntity (entity : Nat)
  | BoldEntityListItem (entity_id : Nat) (bold : Bool)
  deriving DecidableEq, Repr

/-- The call `insert(id)` on an `EntityIdSet`, a `std::set` of entity ids: the ids are
kept in ascending order, each once. -/
def insertId (id : Nat) : List Nat → List Nat
  | [] => [id]
  | head :: rest =>
    if id < head then id :: head :: rest
    else if id = head then head :: rest
    else head :: insertId id rest

/-- The call `erase(id)` on an `EntityIdSet`. -/
def eraseId (id : Nat) (set : List Nat) : List Nat := set.filter (fun x => decide (x ≠ id))

/-- The loop of `RefreshPropertyBrowser` that takes the bold face from every list item,
run when nothing is selected. -/
def RefreshPropertyBrowser.unboldLoop (toInt : String → Int) :
    List QListWidgetItem → List BrowserCall → List BrowserCall
  | [], calls => calls
  | item :: rest, calls =>
    RefreshPropertyBrowser.unboldLoop toInt rest
      (calls ++ [BrowserCall.BoldEntityListItem (toEntityId (toInt item.text)) false])

/-- The loop of `RefreshPropertyBrowser` over the selected entities: the state is
`selectedEntities_`, `noneSelectedEntities` and the calls made. -/
def RefreshPropertyBrowser.entityLoop :
    List EntityPtr → List Nat → List Nat → List BrowserCall →
    Except Fault (List Nat × List Nat × List BrowserCall)
  | [], selectedEntities_, noneSelectedEntities, calls =>
    .ok (selectedEntities_, noneSelectedEntities, calls)
  | none :: _, _, _, _ => .error .nullDereference
  | some entity :: rest, selectedEntities_, noneSelectedEntities, calls =>
    RefreshPropertyBrowser.entityLoop rest (insertId entity.GetId selectedEntities_)
      (eraseId entity.GetId noneSelectedEntities)
      (calls ++ [BrowserCall.AddNewEntity entity.GetId])

/-- The `while` loop of `RefreshPropertyBrowser` over `noneSelectedEntities`, whose first
member is `*begin()`. -/
def RefreshPropertyBrowser.removeLoop (scene : SceneManager) :
    List Nat → List BrowserCall → List BrowserCall
  | [], calls => calls
  | id :: rest, calls =>
    match scene.GetEntity id with
    | some entity =>
      RefreshPropertyBrowser.removeLoop scene rest
        (calls ++ [BrowserCall.BoldEntityListItem entity.GetId false,
          BrowserCall.RemoveEntity entity.GetId])
    | none => RefreshPropertyBrowser.removeLoop scene rest calls

/-- The member `ECEditorWindow::RefreshPropertyBrowser`. `browser_` tells whether the
window has a browser, `defaultWorldScene` is what `GetDefaultWorldScene()` returns and
`selectedEntities_` is the tracked set of ids, in ascending order. The result is
`selectedEntities_` after the call and the calls made, in order. -/
def RefreshPropertyBrowser (toInt : String → Int) (browser_ : Bool)
    (defaultWorldScene : ScenePtr) (entity_list_ : Option QListWidget)
    (selectedEntities_ : List Nat) : Except Fault (List Nat × List BrowserCall) :=
  if !browser_ then .ok (selectedEntities_, [])
  else
    match defaultWorldScene with
    | none => .ok (selectedEntities_, [])
    | some scene =>
      let entities := GetSelectedEntities toInt entity_list_ defaultWorldScene
      if entities.length = 0 then
        match entity_list_ with
        | none => .error .nullDereference
        | some list =>
          .ok (selectedEntities_,
            RefreshPropertyBrowser.unboldLoop toInt list.items [BrowserCall.clear])
      else
        match RefreshPropertyBrowser.entityLoop entities [] selectedEntities_
            [BrowserCall.hide] with
        | .error fault => .error fault
        | .ok (selected, noneSelectedEntities, calls) =>
          .ok (selected,
            RefreshPropertyBrowser.removeLoop scene noneSelectedEntities calls
              ++ [BrowserCall.show, BrowserCall.UpdateBrowser])

end ECEditor

namespace ECEditor

open Foundation Scene

/-- The previously tracked ids that are no longer selected and still exist in the scene:
the members of `tracked` that are the id of none of `entities` and of an entity of the
scene. -/
def staleIds (scene : SceneManager) (tracked : List Nat) (entities : List Entity) : List Nat :=
  (tracked.filter (fun id => decide (id ∉ entities.map Entity.GetId))).filter
    (fun id => (scene.GetEntity id).isSome)

end ECEditor

deriving instance DecidableEq for Except

namespace Fixture

open Foundation Scene ECEditor

/-- A factory of serializable components with two attributes. -/
def meshFactory : ComponentFactoryInterface :=
  { serializable := true, attributes := [⟨"file", ""⟩, ⟨"scale", "1"⟩] }

/-- A factory of serializable components without attributes. -/
def lightFactory : ComponentFactoryInterface :=
  { serializable := true, attributes := [] }

/-- A registry with the type `Light` only. -/
def lightOnly : ComponentManager :=
  { mFactories := ⟨[("Light", lightFactory)]⟩ }

/-- A registry with the types `Light` and `Mesh`. -/
def lightAndMesh : ComponentManager :=
  { mFactories := ⟨[("Light", lightFactory), ("Mesh", meshFactory)]⟩ }

/-- A stand-in for `ParseString<entity_id_t>` that reads the string `1`. -/
def ParseString (s : String) : Nat := if s = "1" then 1 else 0

/-- An entity with one `Mesh` component whose two attributes differ from the defaults. -/
def torso : Entity :=
  { id := 1,
    components := [⟨"Mesh", "torso", true, [⟨"file", "a.mesh"⟩, ⟨"scale", "2"⟩],
      AttributeChange.Local⟩] }

/-- A framework whose scene `World` holds `torso`. -/
def meshWorld : Framework :=
  { componentManager := lightAndMesh, worldScene := some ⟨[torso]⟩ }

/-- An entity with two `Light` components that differ in their instance names. -/
def lamps : Entity :=
  { id := 1,
    components := [⟨"Light", "keylight", true, [], AttributeChange.Local⟩,
      ⟨"Light", "filllight", true, [], AttributeChange.Local⟩] }

/-- A framework whose scene `World` holds `lamps`. -/
def lampWorld : Framework :=
  { componentManager := lightAndMesh, worldScene := some ⟨[lamps]⟩ }

/-- A clipboard document whose entity element names the entity 1. -/
def clipboardOne : QDomDocument := ⟨[⟨"entity", [("id", "1")]⟩]⟩

/-- A clipboard document whose entity element names an entity no fixture scene has. -/
def clipboardSeven : QDomDocument := ⟨[⟨"entity", [("id", "7")]⟩]⟩

/-- The framework after `torso` was pasted into `meshWorld`. -/
def meshWorldPasted : Framework :=
  { componentManager := lightAndMesh,
    worldScene := some ⟨[torso,
      { id := 2,
        components := [⟨"Mesh", "", true, [⟨"file", "a.mesh"⟩, ⟨"scale", "1"⟩],
          AttributeChange.Disconnected⟩] }]⟩ }

/-- The calls made while `torso` was pasted into `meshWorld`. -/
def meshWorldCalls : List Call :=
  [Call.FromString 2 "Mesh" "file" "a.mesh" AttributeChange.Local,
   Call.ComponentChanged 2 "Mesh" AttributeChange.Local,
   Call.FromString 2 "Mesh" "file" "a.mesh" AttributeChange.Local,
   Call.ComponentChanged 2 "Mesh" AttributeChange.Local,
   Call.ComponentChanged 2 "Mesh" AttributeChange.Local]

/-- A framework without a scene `World`. -/
def noWorld : Framework :=
  { componentManager := lightAndMesh, worldScene := none }

/-- A clipboard document without an `entity` element. -/
def clipboardOther : QDomDocument := ⟨[⟨"component", [("type", "Mesh")]⟩]⟩

/-- An entity whose second component, at index 1, has one attribute. -/
def shed : Entity :=
  { id := 1,
    components := [⟨"Light", "keylight", true, [], AttributeChange.Local⟩,
      ⟨"Mesh", "wall", true, [⟨"file", "w.mesh"⟩], AttributeChange.Local⟩] }

/-- A framework whose scene `World` holds `shed`. -/
def shedWorld : Framework :=
  { componentManager := lightAndMesh, worldScene := some ⟨[shed]⟩ }

/-- An entity whose id is 2^31. -/
def farEntity : Entity := { id := 2147483648, components := [] }

/-- An entity with the id 2 and two `Light` components. -/
def lantern : Entity :=
  { id := 2,
    components := [⟨"Light", "keylight", true, [], AttributeChange.Local⟩,
      ⟨"Light", "filllight", true, [], AttributeChange.Local⟩] }

/-- A stand-in for `QString::toInt` that reads the strings `1` and `2`. -/
def toInt (s : String) : Int := if s = "1" then 1 else if s = "2" then 2 else 0

/-- An entity list with the rows `1`, `2` and `5`, the first and the last selected. -/
def rows : QListWidget := ⟨[⟨"1", true⟩, ⟨"2", false⟩, ⟨"5", true⟩]⟩

/-- An entity list with the row `1`, not selected. -/
def idle : QListWidget := ⟨[⟨"1", false⟩]⟩

end Fixture

namespace Foundation

theorem keyLess_iff (a b : String) : keyLess a b ↔ a < b :=
  String.lt_iff_toList_lt.symm

theorem findEntry_eq_none_iff {V : Type} (k : String) (l : List (String × V)) :
    findEntry k l = none ↔ k ∉ l.map Prod.fst := by
  induction l with
  | nil => simp [findEntry]
  | cons hd tl ih =>
    obtain ⟨k1, v1⟩ := hd
    by_cases h : k = k1
    · simp [findEntry, h]
    · simp [findEntry, h, ih]

theorem findEntry_assignEntry_self {V : Type} (k : String) (v : V) (l : List (String × V)) :
    findEntry k (assignEntry k v l) = some v := by
  induction l with
  | nil => simp [assignEntry, findEntry]
  | cons hd tl ih =>
    obtain ⟨k1, v1⟩ := hd
    simp only [assignEntry]
    split_ifs with h1 h2
    · simp [findEntry]
    · simp [findEntry]
    · simp [findEntry, h2, ih]

theorem findEntry_assignEntry_other {V : Type} (k other : String) (v : V)
    (l : List (String × V)) (hne : other ≠ k) :
    findEntry other (assignEntry k v l) = findEntry other l := by
  induction l with
  | nil => simp [assignEntry, findEntry, hne]
  | cons hd tl ih =>
    obtain ⟨k1, v1⟩ := hd
    simp only [assignEntry]
    split_ifs with h1 h2
    · simp [findEntry, hne]
    · subst h2
      simp [findEntry, hne]
    · by_cases h3 : other = k1
      · simp [findEntry, h3]
      · simp [findEntry, h3, ih]

theorem mem_keys_assignEntry {V : Type} (k : String) (v : V) (l : List (String × V))
    (a : String × V) (ha : a ∈ assignEntry k v l) : a.1 = k ∨ a ∈ l := by
  induction l with
  | nil =>
    simp only [assignEntry, List.mem_singleton] at ha
    left; rw [ha]
  | cons hd tl ih =>
    obtain ⟨k1, v1⟩ := hd
    simp only [assignEntry] at ha
    split_ifs at ha with h1 h2
    · rcases List.mem_cons.1 ha with rfl | ha
      · left; rfl
      · right; exact ha
    · rcases List.mem_cons.1 ha with rfl | ha
      · left; rfl
      · right; exact List.mem_cons_of_mem _ ha
    · rcases List.mem_cons.1 ha with rfl | ha
      · right; exact List.mem_cons_self _ _
      · rcases ih ha with h | h
        · left; exact h
        · right; exact List.mem_cons_of_mem _ h

theorem ordered_assignEntry {V : Type} (k : String) (v : V) (l : List (String × V))
    (h : Ordered l) : Ordered (assignEntry k v l) := by
  induction l with
  | nil => simp [assignEntry, Ordered]
  | cons hd tl ih =>
    obtain ⟨k1, v1⟩ := hd
    unfold Ordered at h ih ⊢
    rw [List.pairwise_cons] at h
    simp only [assignEntry]
    split_ifs with h1 h2
    · refine List.pairwise_cons.2 ⟨?_, List.pairwise_cons.2 h⟩
      intro a ha
      rcases List.mem_cons.1 ha with rfl | ha
      · exact h1
      · have h3 := h.1 a ha
        rw [keyLess_iff] at h1 h3 ⊢
        exact lt_trans h1 h3
    · subst h2
      exact List.pairwise_cons.2 h
    · refine List.pairwise_cons.2 ⟨?_, ih h.2⟩
      intro a ha
      rcases mem_keys_assignEntry k v tl a ha with h3 | h3
      · rw [h3, keyLess_iff]
        rw [keyLess_iff] at h1
        exact lt_of_le_of_ne (not_lt.1 h1) (Ne.symm h2)
      · exact h.1 a h3

theorem eraseEntry_sublist {V : Type} (k : String) (l : List (String × V)) :
    (eraseEntry k l).Sublist l := by
  induction l with
  | nil => simp [eraseEntry]
  | cons hd tl ih =>
    obtain ⟨k1, v1⟩ := hd
    simp only [eraseEntry]
    split_ifs with h
    · exact List.sublist_cons_self _ _
    · exact ih.cons₂ _

theorem ordered_eraseEntry {V : Type} (k : String) (l : List (String × V))
    (h : Ordered l) : Ordered (eraseEntry k l) :=
  List.Pairwise.sublist (eraseEntry_sublist k l) h

theorem findEntry_eraseEntry_self {V : Type} (k : String) (l : List (String × V))
    (h : Ordered l) : findEntry k (eraseEntry k l) = none := by
  induction l with
  | nil => simp [eraseEntry, findEntry]
  | cons hd tl ih =>
    obtain ⟨k1, v1⟩ := hd
    unfold Ordered at h ih
    rw [List.pairwise_cons] at h
    simp only [eraseEntry]
    split_ifs with h1
    · subst h1
      rw [findEntry_eq_none_iff]
      intro hmem
      obtain ⟨a, ha, hak⟩ := List.mem_map.1 hmem
      have h2 := h.1 a ha
      rw [keyLess_iff, hak] at h2
      exact lt_irrefl _ h2
    · simp [findEntry, h1, ih h.2]

theorem findEntry_eraseEntry_other {V : Type} (k other : String) (l : List (String × V))
    (hne : other ≠ k) : findEntry other (eraseEntry k l) = findEntry other l := by
  induction l with
  | nil => simp [eraseEntry]
  | cons hd tl ih =>
    obtain ⟨k1, v1⟩ := hd
    simp only [eraseEntry]
    split_ifs with h1
    · subst h1
      simp [findEntry, hne]
    · by_cases h3 : other = k1
      · simp [findEntry, h3]
      · simp [findEntry, h3, ih]

end Foundation

namespace Foundation

/-- The empty registry is ordered. -/
theorem ordered_empty : Ordered ([] : List (String × ComponentFactoryInterfacePtr)) :=
  List.Pairwise.nil

/-- A completed `registerFactory` keeps the keys of the registry in ascending order. -/
theorem registerFactory_ordered (self after : ComponentManager) (component : String)
    (factory : ComponentFactoryInterfacePtr) (hord : Ordered self.mFactories.entries)
    (h : self.registerFactory component factory = .ok after) :
    Ordered after.mFactories.entries := by
  cases hf : self.mFactories.find component with
  | some f =>
    simp [ComponentManager.registerFactory, assert, hf, bind, Except.bind] at h
  | none =>
    simp only [ComponentManager.registerFactory, assert, hf, Option.isNone_none, if_true,
      bind, Except.bind, pure, Except.pure, Except.ok.injEq] at h
    rw [← h]
    exact ordered_assignEntry component factory _ hord

/-- A completed `unregisterFactory` keeps the keys of the registry in ascending order. -/
theorem unregisterFactory_ordered (self after : ComponentManager) (component : String)
    (hord : Ordered self.mFactories.entries)
    (h : self.unregisterFactory component = .ok after) :
    Ordered after.mFactories.entries := by
  cases hf : self.mFactories.find component with
  | none =>
    simp [ComponentManager.unregisterFactory, assert, hf, bind, Except.bind] at h
  | some f =>
    simp only [ComponentManager.unregisterFactory, assert, hf, Option.isSome_some, if_true,
      bind, Except.bind, pure, Except.pure, Except.ok.injEq] at h
    rw [← h]
    exact ordered_eraseEntry component _ hord

/-- C1: when `component` is not registered, `registerFactory(component, factory)` completes
and the registry then maps `component` to `factory`, while every other type name is mapped
as before the call. -/
theorem registerFactory_registers (self : ComponentManager) (component : String)
    (factory : ComponentFactoryInterfacePtr)
    (h : self.mFactories.find component = none) :
    ∃ after, self.registerFactory component factory = .ok after ∧
      after.mFactories.find component = some factory ∧
      ∀ other, other ≠ component →
        after.mFactories.find other = self.mFactories.find other := by
  refine ⟨⟨self.mFactories.assign component factory⟩, ?_, ?_, ?_⟩
  · simp [ComponentManager.registerFactory, assert, h, bind, Except.bind, pure, Except.pure]
  · exact findEntry_assignEntry_self component factory _
  · intro other hne
    exact findEntry_assignEntry_other component other factory _ hne

/-- Witness of C1: registering `Mesh` in a registry that holds `Light` only. -/
theorem registerFactory_registers_witness :
    Fixture.lightOnly.mFactories.find "Mesh" = none ∧
    ∃ after, Fixture.lightOnly.registerFactory "Mesh" Fixture.meshFactory = .ok after ∧
      after.mFactories.find "Mesh" = some Fixture.meshFactory ∧
      ∀ other, other ≠ "Mesh" →
        after.mFactories.find other = Fixture.lightOnly.mFactories.find other :=
  ⟨by decide, registerFactory_registers Fixture.lightOnly "Mesh" Fixture.meshFactory (by decide)⟩

/-- C2: when `component` already has a factory, `registerFactory(component, other)` ends in
the failed assertion: no registry with `other` in place of the registered factory comes
out of the call. -/
theorem registerFactory_registered_fails (self : ComponentManager) (component : String)
    (factory other : ComponentFactoryInterfacePtr)
    (h : self.mFactories.find component = some factory) :
    self.registerFactory component other = .error Fault.assertionFailed := by
  simp [ComponentManager.registerFactory, assert, h, bind, Except.bind]

/-- Witness of C2: registering `Mesh` a second time. -/
theorem registerFactory_registered_fails_witness :
    Fixture.lightAndMesh.mFactories.find "Mesh" = some Fixture.meshFactory ∧
    Fixture.lightAndMesh.registerFactory "Mesh" Fixture.lightFactory
      = .error Fault.assertionFailed :=
  ⟨by decide, registerFactory_registered_fails Fixture.lightAndMesh "Mesh" Fixture.meshFactory
    Fixture.lightFactory (by decide)⟩

/-- C3: `unregisterFactory(component)` fails exactly when `component` is not registered;
when it is registered the call completes, `component` is then not registered and every
other type name is mapped as before. -/
theorem unregisterFactory_spec (self : ComponentManager) (component : String)
    (hord : Ordered self.mFactories.entries) :
    ((∃ fault, self.unregisterFactory component = .error fault) ↔
      self.mFactories.find component = none) ∧
    ((self.mFactories.find component).isSome = true →
      ∃ after, self.unregisterFactory component = .ok after ∧
        after.mFactories.find component = none ∧
        ∀ other, other ≠ component →
          after.mFactories.find other = self.mFactories.find other) := by
  constructor
  · cases h : self.mFactories.find component with
    | none =>
      simp [ComponentManager.unregisterFactory, assert, h, bind, Except.bind]
    | some f =>
      simp [ComponentManager.unregisterFactory, assert, h, bind, Except.bind, pure, Except.pure]
  · intro h
    refine ⟨⟨self.mFactories.erase component⟩, ?_, ?_, ?_⟩
    · simp [ComponentManager.unregisterFactory, assert, h, bind, Except.bind, pure, Except.pure]
    · exact findEntry_eraseEntry_self component _ hord
    · intro other hne
      exact findEntry_eraseEntry_other component other _ hne

/-- Witness of C3: unregistering `Mesh` from a registry that holds `Light` and `Mesh`. -/
theorem unregisterFactory_spec_witness :
    Ordered Fixture.lightAndMesh.mFactories.entries ∧
    (Fixture.lightAndMesh.mFactories.find "Mesh").isSome = true ∧
    ∃ after, Fixture.lightAndMesh.unregisterFactory "Mesh" = .ok after ∧
      after.mFactories.find "Mesh" = none ∧
      ∀ other, other ≠ "Mesh" →
        after.mFactories.find other = Fixture.lightAndMesh.mFactories.find other :=
  ⟨by decide, by decide,
    (unregisterFactory_spec Fixture.lightAndMesh "Mesh" (by decide)).2 (by decide)⟩

/-- C4: for a registered type name `t`, `createComponent(t)` is a component (not the empty
pointer) whose `TypeName()` is `t`; for a type name that is not registered it is the empty
pointer. -/
theorem createComponent_spec (self : ComponentManager) (t : String) :
    ((self.mFactories.find t).isSome = true →
      ∃ c, self.createComponent t = some c ∧ c.TypeName = t) ∧
    (self.mFactories.find t = none → self.createComponent t = none) := by
  constructor
  · intro h
    obtain ⟨f, hf⟩ := Option.isSome_iff_exists.1 h
    refine ⟨{ typeName := t, name := "", serializable := f.serializable,
              attributes := f.attributes, change := AttributeChange.Disconnected }, ?_, rfl⟩
    simp only [ComponentManager.createComponent, hf]
  · intro h
    simp only [ComponentManager.createComponent, h]

/-- Witness of C4: `Mesh` is registered and `Camera` is not. -/
theorem createComponent_spec_witness :
    (Fixture.lightAndMesh.mFactories.find "Mesh").isSome = true ∧
    (∃ c, Fixture.lightAndMesh.createComponent "Mesh" = some c ∧ c.TypeName = "Mesh") ∧
    Fixture.lightAndMesh.mFactories.find "Camera" = none ∧
    Fixture.lightAndMesh.createComponent "Camera" = none :=
  ⟨by decide, (createComponent_spec Fixture.lightAndMesh "Mesh").1 (by decide), by decide,
    (createComponent_spec Fixture.lightAndMesh "Camera").2 (by decide)⟩

end Foundation

namespace ECEditor

open Foundation Scene

theorem findComponent_some (type_name : String) (components : List ComponentInterface) (p : Nat)
    (h : findComponent type_name components = some p) :
    ∃ c, components[p]? = some c ∧ c.TypeName = type_name := by
  induction components generalizing p with
  | nil => simp [findComponent] at h
  | cons hd tl ih =>
    simp only [findComponent] at h
    split_ifs at h with h1
    · cases h
      exact ⟨hd, by simp, h1⟩
    · cases hq : findComponent type_name tl with
      | none => simp [hq] at h
      | some q =>
        simp only [hq, Option.map_some', Option.some.injEq] at h
        subst h
        obtain ⟨c, hc, hct⟩ := ih q hq
        exact ⟨c, by simpa using hc, hct⟩

theorem findComponent_eq_none_iff (type_name : String) (components : List ComponentInterface) :
    findComponent type_name components = none ↔
      type_name ∉ components.map ComponentInterface.TypeName := by
  induction components with
  | nil => simp [findComponent]
  | cons hd tl ih =>
    by_cases h1 : hd.TypeName = type_name
    · simp [findComponent, h1]
    · have h2 : ¬ type_name = hd.TypeName := fun h => h1 h.symm
      simp [findComponent, h1, h2, ih]

theorem findComponentNamed_eq_none (type_name name : String)
    (components : List ComponentInterface)
    (h : findComponent type_name components = none) :
    findComponentNamed type_name name components = none := by
  induction components with
  | nil => rfl
  | cons hd tl ih =>
    by_cases h1 : hd.TypeName = type_name
    · simp [findComponent, h1] at h
    · simp only [findComponent, h1, if_false, Option.map_eq_none'] at h
      simp [findComponentNamed, h1, ih h]

theorem addComponent_absent (entity : Entity) (c : ComponentInterface)
    (change : AttributeChange) (h : findComponent c.TypeName entity.components = none) :
    entity.AddComponent c change
      = { entity with components := entity.components ++ [c] } := by
  simp only [Entity.AddComponent, Entity.GetComponent,
    findComponentNamed_eq_none c.TypeName c.Name entity.components h]

theorem createComponent_typeName (mgr : ComponentManager) (type_name : String)
    (c : ComponentInterface) (h : mgr.createComponent type_name = some c) :
    c.TypeName = type_name := by
  unfold ComponentManager.createComponent at h
  cases hm : mgr.mFactories.find type_name with
  | none => simp [hm] at h
  | some f =>
    simp only [hm, Option.some.injEq] at h
    rw [← h]
    rfl

theorem getOrCreateComponent_some (mgr : ComponentManager) (entity entity1 : Entity)
    (type_name : String) (change : AttributeChange) (p : Nat)
    (h : entity.GetOrCreateComponent mgr type_name change = (entity1, some p)) :
    entity1.GetId = entity.GetId ∧
    ∃ c, entity1.deref p = some c ∧ c.TypeName = type_name := by
  unfold Entity.GetOrCreateComponent at h
  cases hf : findComponent type_name entity.components with
  | some q =>
    simp only [hf, Prod.mk.injEq, Option.some.injEq] at h
    obtain ⟨rfl, rfl⟩ := h
    exact ⟨rfl, findComponent_some type_name _ _ hf⟩
  | none =>
    simp only [hf] at h
    cases hc : mgr.createComponent type_name with
    | none => simp [hc] at h
    | some c =>
      have hct := createComponent_typeName mgr type_name c hc
      simp only [hc, Prod.mk.injEq, Option.some.injEq] at h
      obtain ⟨rfl, rfl⟩ := h
      rw [addComponent_absent entity c change (by rw [hct]; exact hf)]
      exact ⟨rfl, c, by simp [Entity.deref], hct⟩

theorem findAttribute_some (name : String) (attributes : List AttributeInterface) (q : Nat)
    (h : findAttribute name attributes = some q) : ∃ a, attributes[q]? = some a := by
  induction attributes generalizing q with
  | nil => simp [findAttribute] at h
  | cons hd tl ih =>
    by_cases h1 : hd.GetNameString = name
    · simp only [findAttribute, h1, if_true, Option.some.injEq] at h
      subst h
      exact ⟨hd, by simp⟩
    · simp only [findAttribute, h1, if_false, Option.map_eq_some'] at h
      obtain ⟨r, hr, rfl⟩ := h
      obtain ⟨a, ha⟩ := ih r hr
      exact ⟨a, by simpa using ha⟩

theorem attributeFromString_local (component : ComponentInterface) (q : Nat) (str : String)
    (a : AttributeInterface) (h : component.attributes[q]? = some a) :
    (component.attributeFromString q str AttributeChange.Local).1.TypeName
        = component.TypeName ∧
    (component.attributeFromString q str AttributeChange.Local).1.IsSerializable
        = component.IsSerializable ∧
    (component.attributeFromString q str AttributeChange.Local).2
        = some AttributeChange.Local := by
  simp only [ComponentInterface.attributeFromString, h]
  exact ⟨rfl, rfl, rfl⟩

theorem attributeLoop_ok (entity : Nat) (attributes : List AttributeInterface) (i remaining : Nat)
    (component component1 : ComponentInterface) (calls calls1 : List Call)
    (h : PasteEntity.attributeLoop entity attributes i remaining component calls
      = .ok (component1, calls1)) :
    component1.TypeName = component.TypeName ∧
    component1.IsSerializable = component.IsSerializable ∧
    ∃ copies : List (String × String),
      calls1 = calls ++ copies.flatMap (copyCalls entity component.TypeName) := by
  induction remaining generalizing component calls with
  | zero =>
    simp only [PasteEntity.attributeLoop, Except.ok.injEq, Prod.mk.injEq] at h
    obtain ⟨rfl, rfl⟩ := h
    exact ⟨rfl, rfl, [], by simp⟩
  | succ n ih =>
    simp only [PasteEntity.attributeLoop] at h
    cases ha : attributes[i]? with
    | none => simp [ha] at h
    | some a =>
      simp only [ha] at h
      cases hg : component.GetAttribute a.GetNameString with
      | none =>
        simp only [hg] at h
        exact ih _ _ h
      | some q =>
        simp only [hg] at h
        obtain ⟨b, hb⟩ := findAttribute_some _ _ _ hg
        obtain ⟨w1, w2, w3⟩ := attributeFromString_local component q a.ToString b hb
        obtain ⟨h1, h2, copies, h3⟩ := ih _ _ h
        rw [w1] at h1 h3
        rw [w2] at h2
        rw [w3] at h3
        refine ⟨h1, h2, (a.GetNameString, a.ToString) :: copies, ?_⟩
        rw [h3]
        simp [copyCalls, notification]

theorem componentLoop_calls (mgr : ComponentManager) (i : Nat)
    (components : List ComponentInterface) (newEntity newEntity1 : Entity)
    (calls calls1 : List Call)
    (h : PasteEntity.componentLoop mgr i components newEntity calls = .ok (newEntity1, calls1)) :
    ∃ copies : List (List (String × String)),
      copies.length = components.length ∧
      calls1 = calls ++ (List.zipWith (fun source attributes =>
        iterationCalls newEntity.GetId source.TypeName attributes)
        components copies).flatten := by
  induction components generalizing i newEntity calls with
  | nil =>
    simp only [PasteEntity.componentLoop, Except.ok.injEq, Prod.mk.injEq] at h
    exact ⟨[], rfl, by simp [h.2]⟩
  | cons source rest ih =>
    simp only [PasteEntity.componentLoop] at h
    cases hg : newEntity.GetOrCreateComponent mgr source.TypeName source.GetChange with
    | mk entity1 ptr =>
      cases ptr with
      | none => simp [hg] at h
      | some p =>
        obtain ⟨hid, c, hc, hct⟩ := getOrCreateComponent_some mgr _ _ _ _ _ hg
        simp only [hg, hc] at h
        split_ifs at h with hser
        · cases hl : PasteEntity.attributeLoop entity1.GetId source.GetAttributes i
              source.GetAttributes.length c calls with
          | error f => simp [hl] at h
          | ok r =>
            obtain ⟨c1, callsA⟩ := r
            simp only [hl] at h
            obtain ⟨h1, _, seg, h3⟩ := attributeLoop_ok _ _ _ _ _ _ _ _ hl
            obtain ⟨copies, hc1, hc2⟩ := ih _ _ _ h
            have hid2 : (entity1.store p c1).GetId = newEntity.GetId := hid
            rw [hid2] at hc2
            refine ⟨seg :: copies, by simp [hc1], ?_⟩
            rw [hc2, h3, h1, hct, hid]
            simp [iterationCalls]
        · obtain ⟨copies, hc1, hc2⟩ := ih _ _ _ h
          rw [hid] at hc2
          refine ⟨[] :: copies, by simp [hc1], ?_⟩
          rw [hc2, hct]
          simp [iterationCalls]

theorem changedCalls_append (xs ys : List Call) :
    changedCalls (xs ++ ys) = changedCalls xs + changedCalls ys := by
  simp [changedCalls, List.countP_append]

theorem changedCalls_iterationCalls (entity : Nat) (component : String)
    (copies : List (String × String)) :
    changedCalls (iterationCalls entity component copies) = copies.length + 1 := by
  induction copies with
  | nil => rfl
  | cons hd tl ih =>
    have h : iterationCalls entity component (hd :: tl)
        = copyCalls entity component hd ++ iterationCalls entity component tl := by
      simp [iterationCalls]
    rw [h, changedCalls_append, ih]
    have h1 : changedCalls (copyCalls entity component hd) = 1 := rfl
    rw [h1, List.length_cons]
    omega

theorem changedCalls_iterations (entity : Nat) (components : List ComponentInterface)
    (copies : List (List (String × String))) (h : copies.length = components.length) :
    changedCalls (List.zipWith (fun source attributes =>
        iterationCalls entity source.TypeName attributes) components copies).flatten
      = components.length + (copies.map List.length).sum := by
  induction components generalizing copies with
  | nil =>
    cases copies with
    | nil => rfl
    | cons c cs => simp at h
  | cons source rest ih =>
    cases copies with
    | nil => simp at h
    | cons c cs =>
      simp only [List.length_cons, Nat.add_right_cancel_iff] at h
      simp only [List.zipWith_cons_cons, List.flatten_cons, changedCalls_append,
        changedCalls_iterationCalls, ih cs h, List.length_cons, List.map_cons, List.sum_cons]
      omega

theorem set_eq_self {α : Type} (l : List α) (p : Nat) (a : α) (h : l[p]? = some a) :
    l.set p a = l := by
  induction l generalizing p with
  | nil => simp
  | cons hd tl ih =>
    cases p with
    | zero =>
      simp only [List.getElem?_cons_zero, Option.some.injEq] at h
      simp [h]
    | succ q =>
      simp only [List.getElem?_cons_succ] at h
      simp [ih q h]

theorem store_same_type (mgr : ComponentManager) (entity : Entity) (p : Nat)
    (c c1 : ComponentInterface) (hc : entity.deref p = some c)
    (ht : c1.TypeName = c.TypeName) (hs : c1.IsSerializable = c.IsSerializable)
    (hb : Built mgr entity) :
    Built mgr (entity.store p c1) ∧
    (entity.store p c1).components.map ComponentInterface.TypeName
      = entity.components.map ComponentInterface.TypeName := by
  have hmem : c ∈ entity.components := List.getElem?_mem hc
  constructor
  · intro x hx
    rcases List.mem_or_eq_of_mem_set hx with hx | rfl
    · exact hb x hx
    · obtain ⟨f, hf1, hf2⟩ := hb c hmem
      exact ⟨f, by rw [ht]; exact hf1, by rw [hs]; exact hf2⟩
  · simp only [Entity.store, List.map_set]
    apply set_eq_self
    rw [ht]
    simp only [Entity.deref] at hc
    simp [hc]

theorem getOrCreateComponent_registered (mgr : ComponentManager) (entity : Entity)
    (type_name : String) (change : AttributeChange) (f : ComponentFactoryInterfacePtr)
    (hf : mgr.mFactories.find type_name = some f) (hb : Built mgr entity) :
    ∃ entity1 p c, entity.GetOrCreateComponent mgr type_name change = (entity1, some p) ∧
      entity1.deref p = some c ∧ c.IsSerializable = f.serializable ∧ Built mgr entity1 ∧
      entity1.components.map ComponentInterface.TypeName
        = (if type_name ∈ entity.components.map ComponentInterface.TypeName
            then entity.components.map ComponentInterface.TypeName
            else entity.components.map ComponentInterface.TypeName ++ [type_name]) := by
  cases hfind : findComponent type_name entity.components with
  | some q =>
    obtain ⟨c, hc, hct⟩ := findComponent_some type_name _ _ hfind
    have hmem : type_name ∈ entity.components.map ComponentInterface.TypeName := by
      by_contra hn
      rw [(findComponent_eq_none_iff _ _).2 hn] at hfind
      cases hfind
    obtain ⟨f1, hf1, hf2⟩ := hb c (List.getElem?_mem hc)
    rw [hct, hf] at hf1
    cases hf1
    exact ⟨entity, q, c, by simp [Entity.GetOrCreateComponent, hfind], hc, hf2, hb,
      by simp only [hmem, if_true]⟩
  | none =>
    have hmem := (findComponent_eq_none_iff _ _).1 hfind
    have hadd := addComponent_absent entity
      ⟨type_name, "", f.serializable, f.attributes, AttributeChange.Disconnected⟩ change hfind
    refine ⟨entity.AddComponent ⟨type_name, "", f.serializable, f.attributes,
      AttributeChange.Disconnected⟩ change, entity.components.length,
      ⟨type_name, "", f.serializable, f.attributes, AttributeChange.Disconnected⟩,
      ?_, ?_, rfl, ?_, ?_⟩
    · simp [Entity.GetOrCreateComponent, hfind, ComponentManager.createComponent, hf]
    · rw [hadd]
      simp [Entity.deref]
    · rw [hadd]
      intro x hx
      simp only [List.mem_append, List.mem_singleton] at hx
      rcases hx with hx | rfl
      · exact hb x hx
      · exact ⟨f, hf, rfl⟩
    · rw [hadd]
      simp only [hmem, if_false]
      simp [ComponentInterface.TypeName]

theorem attributeLoop_total (entity : Nat) (attributes : List AttributeInterface) (i remaining : Nat)
    (component : ComponentInterface) (calls : List Call)
    (h : remaining = 0 ∨ i < attributes.length) :
    ∃ component1 calls1, PasteEntity.attributeLoop entity attributes i remaining component calls
      = .ok (component1, calls1) := by
  induction remaining generalizing component calls with
  | zero => exact ⟨_, _, rfl⟩
  | succ n ih =>
    have hi : i < attributes.length := by
      rcases h with h | h
      · cases h
      · exact h
    simp only [PasteEntity.attributeLoop, List.getElem?_eq_getElem hi]
    cases component.GetAttribute attributes[i].GetNameString with
    | none => exact ih _ _ (Or.inr hi)
    | some q => exact ih _ _ (Or.inr hi)

theorem componentLoop_total (mgr : ComponentManager) (i : Nat)
    (components : List ComponentInterface) (newEntity : Entity) (calls : List Call)
    (hb : Built mgr newEntity)
    (hreg : ∀ k source, components[k]? = some source →
      ∃ f, mgr.mFactories.find source.TypeName = some f ∧
        (f.serializable = true →
          source.GetAttributes = [] ∨ i + k < source.GetAttributes.length)) :
    ∃ newEntity1 calls1,
      PasteEntity.componentLoop mgr i components newEntity calls = .ok (newEntity1, calls1) ∧
      newEntity1.GetId = newEntity.GetId ∧
      newEntity1.components.map ComponentInterface.TypeName
        = addTypes (components.map ComponentInterface.TypeName)
            (newEntity.components.map ComponentInterface.TypeName) := by
  induction components generalizing i newEntity calls with
  | nil => exact ⟨_, _, rfl, rfl, rfl⟩
  | cons source rest ih =>
    obtain ⟨f, hf, hrange⟩ := hreg 0 source (by simp)
    have hrest : ∀ k s, rest[k]? = some s →
        ∃ f, mgr.mFactories.find s.TypeName = some f ∧
          (f.serializable = true →
            s.GetAttributes = [] ∨ (i + 1) + k < s.GetAttributes.length) := by
      intro k s hk
      obtain ⟨f1, h1, h2⟩ := hreg (k + 1) s (by simpa using hk)
      refine ⟨f1, h1, fun h3 => ?_⟩
      rcases h2 h3 with h4 | h4
      · exact Or.inl h4
      · exact Or.inr (by omega)
    obtain ⟨entity1, p, c, hg, hc, hser, hb1, htypes⟩ :=
      getOrCreateComponent_registered mgr newEntity source.TypeName source.GetChange f hf hb
    have hid : entity1.GetId = newEntity.GetId :=
      (getOrCreateComponent_some mgr _ _ _ _ _ hg).1
    have hct : c.TypeName = source.TypeName := by
      obtain ⟨c2, hc2, hct2⟩ := (getOrCreateComponent_some mgr _ _ _ _ _ hg).2
      rw [hc] at hc2
      cases hc2
      exact hct2
    simp only [PasteEntity.componentLoop, hg, hc]
    by_cases hs : c.IsSerializable = true
    · have hin : source.GetAttributes.length = 0 ∨ i < source.GetAttributes.length := by
        rcases hrange (by rw [← hser]; exact hs) with h | h
        · left; simp [h]
        · right; simpa using h
      obtain ⟨c1, callsA, hl⟩ := attributeLoop_total entity1.GetId source.GetAttributes i
        source.GetAttributes.length c calls hin
      obtain ⟨ht1, hs1, _, _⟩ := attributeLoop_ok _ _ _ _ _ _ _ _ hl
      obtain ⟨hb2, htypes2⟩ := store_same_type mgr entity1 p c c1 hc ht1 hs1 hb1
      simp only [hs, if_true, hl]
      obtain ⟨e2, calls2, h1, h2, h3⟩ := ih (i + 1) (entity1.store p c1)
        (callsA ++ [Call.ComponentChanged entity1.GetId c1.TypeName AttributeChange.Local])
        hb2 hrest
      refine ⟨e2, calls2, h1, ?_, ?_⟩
      · rw [h2]; exact hid
      · rw [h3, htypes2, htypes]
        rfl
    · simp only [hs, if_false]
      obtain ⟨e2, calls2, h1, h2, h3⟩ := ih (i + 1) entity1
        (calls ++ [Call.ComponentChanged entity1.GetId c.TypeName AttributeChange.Local])
        hb1 hrest
      refine ⟨e2, calls2, h1, ?_, ?_⟩
      · rw [h2]; exact hid
      · rw [h3, htypes]
        rfl

theorem addTypes_eq (types present : List String) :
    addTypes types present
      = present ++ (firstOccurrences types).filter (fun u => decide (u ∉ present)) := by
  induction types generalizing present with
  | nil => simp [addTypes, firstOccurrences]
  | cons t rest ih =>
    simp only [addTypes, firstOccurrences]
    by_cases h : t ∈ present
    · simp only [h, if_true, ih]
      congr 1
      rw [List.filter_cons]
      simp only [h, not_true_eq_false, decide_False, Bool.false_eq_true, if_false,
        List.filter_filter]
      apply List.filter_congr
      intro u _
      by_cases hu : u ∈ present
      · simp [hu]
      · have : u ≠ t := fun e => hu (e ▸ h)
        simp [hu, this]
    · simp only [h, if_false, ih]
      rw [List.filter_cons]
      simp only [h, not_false_eq_true, decide_True, if_true, List.filter_filter,
        List.append_assoc, List.singleton_append]
      congr 2
      apply List.filter_congr
      intro u _
      by_cases hu : u ∈ present
      · simp [hu]
      · by_cases hut : u = t
        · simp [hut]
        · simp [hu, hut]

theorem firstOccurrences_of_nodup (types : List String) (h : types.Nodup) :
    firstOccurrences types = types := by
  induction types with
  | nil => rfl
  | cons t rest ih =>
    rw [List.nodup_cons] at h
    simp only [firstOccurrences, ih h.2]
    congr 1
    rw [List.filter_eq_self]
    intro u hu
    have : u ≠ t := fun e => h.1 (e ▸ hu)
    simpa using this

theorem addTypes_nil (types : List String) : addTypes types [] = firstOccurrences types := by
  rw [addTypes_eq]
  simp

theorem le_foldr_max (l : List Nat) (a : Nat) (h : a ∈ l) : a ≤ l.foldr max 0 := by
  induction l with
  | nil => cases h
  | cons hd tl ih =>
    simp only [List.foldr_cons]
    rcases List.mem_cons.1 h with rfl | h
    · exact le_max_left _ _
    · exact le_trans (ih h) (le_max_right _ _)

theorem lt_freshId (scene : SceneManager) (e : Entity) (h : e ∈ scene.entities) :
    e.GetId < scene.freshId := by
  unfold SceneManager.freshId
  exact Nat.lt_succ_of_le (le_foldr_max _ _ (List.mem_map_of_mem _ h))

theorem store_createEntity (scene : SceneManager) (newEntity : Entity)
    (h : newEntity.GetId = scene.freshId) :
    (scene.CreateEntity.1.store newEntity).entities = scene.entities ++ [newEntity] := by
  have hold : scene.entities.map
      (fun e => if e.GetId = newEntity.GetId then newEntity else e) = scene.entities := by
    conv_rhs => rw [← List.map_id scene.entities]
    apply List.map_congr_left
    intro e he
    have := lt_freshId scene e he
    have hne : e.GetId ≠ newEntity.GetId := by omega
    simp [hne]
  simp only [SceneManager.store, SceneManager.CreateEntity, List.map_append, hold,
    List.map_cons, List.map_nil]
  simp [Entity.GetId] at h ⊢
  intro hne
  exact absurd h.symm hne

theorem getEntity_fresh (scene : SceneManager) (newEntity : Entity)
    (h : newEntity.GetId = scene.freshId) :
    SceneManager.GetEntity ⟨scene.entities ++ [newEntity]⟩ scene.freshId = some newEntity := by
  have hnone : scene.entities.find? (fun e => decide (e.GetId = scene.freshId)) = none := by
    rw [List.find?_eq_none]
    intro e he
    have := lt_freshId scene e he
    simp only [decide_eq_true_eq]
    omega
  simp [SceneManager.GetEntity, List.find?_append, hnone, h]

/-- C6: when the scene `World` exists and the first `entity` element of the clipboard
document carries an id that no entity of the scene has, `PasteEntity` completes, logs one
warning and leaves the framework, and with it the scene and its entities, as it was. -/
theorem PasteEntity_source_missing (ParseString : String → Nat) (framework_ : Framework)
    (scene : SceneManager) (temp_doc : QDomDocument) (ent_elem : QDomElement)
    (hscene : framework_.worldScene = some scene)
    (helem : temp_doc.firstChildElement "entity" = some ent_elem)
    (hmiss : ∀ e ∈ scene.entities, e.GetId ≠ ParseString (ent_elem.attribute "id")) :
    PasteEntity ParseString framework_ (some temp_doc)
      = .ok (framework_, [Call.LogWarning (PasteEntity.warning (ent_elem.attribute "id"))]) := by
  have hget : scene.GetEntity (ParseString (ent_elem.attribute "id")) = none := by
    unfold SceneManager.GetEntity
    rw [List.find?_eq_none]
    intro e he
    simpa using hmiss e he
  simp only [PasteEntity, hscene, helem, hget]

/-- Witness of C6: the clipboard names an entity that the scene with `torso` lacks. -/
theorem PasteEntity_source_missing_witness :
    Fixture.meshWorld.worldScene = some ⟨[Fixture.torso]⟩ ∧
    PasteEntity Fixture.ParseString Fixture.meshWorld (some Fixture.clipboardSeven)
      = .ok (Fixture.meshWorld, [Call.LogWarning (PasteEntity.warning "7")]) :=
  ⟨rfl, PasteEntity_source_missing Fixture.ParseString Fixture.meshWorld ⟨[Fixture.torso]⟩
    Fixture.clipboardSeven ⟨"entity", [("id", "7")]⟩ rfl (by decide) (by decide)⟩

/-- C7, the code at a failing input: pasting an entity whose `Mesh` component has the
attributes `file = a.mesh` and `scale = 2` copies `file` twice and never `scale`; the new
component keeps `scale = 1`, the value its factory gave it. -/
theorem PasteEntity_copies_attribute_of_component_index :
    PasteEntity Fixture.ParseString Fixture.meshWorld (some Fixture.clipboardOne)
      = .ok (Fixture.meshWorldPasted, Fixture.meshWorldCalls) ∧
    (Fixture.meshWorld.worldScene.bind (fun scene => scene.GetEntity 1)).map
        (fun entity => entity.GetComponentVector.map
          (fun c => c.GetAttributes.map AttributeInterface.ToString))
      = some [["a.mesh", "2"]] ∧
    (Fixture.meshWorldPasted.worldScene.bind (fun scene => scene.GetEntity 2)).map
        (fun entity => entity.GetComponentVector.map
          (fun c => c.GetAttributes.map AttributeInterface.ToString))
      = some [["a.mesh", "1"]] := by
  decide

/-- C8 as stated fails: pasting `torso`, whose vector has one component, completes with
three calls `ComponentChanged(Local)` on the `Mesh` component of the new entity; two of them
are raised by the two attribute copies, the first before the second copy is made. -/
theorem PasteEntity_ComponentChanged_per_copy :
    PasteEntity Fixture.ParseString Fixture.meshWorld (some Fixture.clipboardOne)
      = .ok (Fixture.meshWorldPasted,
          [Call.FromString 2 "Mesh" "file" "a.mesh" AttributeChange.Local,
           Call.ComponentChanged 2 "Mesh" AttributeChange.Local,
           Call.FromString 2 "Mesh" "file" "a.mesh" AttributeChange.Local,
           Call.ComponentChanged 2 "Mesh" AttributeChange.Local,
           Call.ComponentChanged 2 "Mesh" AttributeChange.Local]) ∧
    Fixture.torso.GetComponentVector.length = 1 ∧
    changedCalls Fixture.meshWorldCalls = 3 := by
  decide

/-- C8, amended: in a call of `PasteEntity` that copies the source entity and completes, the
calls made are, for each component of the source vector in order, the attribute copies of
that iteration on the component of that type of the new entity, each `FromString(Local)`
followed by the `ComponentChanged(Local)` it raises, and after all of them the one
`ComponentChanged(Local)` that `PasteEntity` calls itself; `ComponentChanged(Local)` is
called once per source component and once per attribute copy. -/
theorem PasteEntity_ComponentChanged_calls (ParseString : String → Nat)
    (framework_ after : Framework) (scene : SceneManager) (temp_doc : QDomDocument)
    (ent_elem : QDomElement) (originalEntity : Entity) (calls : List Call)
    (hscene : framework_.worldScene = some scene)
    (helem : temp_doc.firstChildElement "entity" = some ent_elem)
    (hsrc : scene.GetEntity (ParseString (ent_elem.attribute "id")) = some originalEntity)
    (hok : PasteEntity ParseString framework_ (some temp_doc) = .ok (after, calls)) :
    ∃ copies : List (List (String × String)),
      copies.length = originalEntity.GetComponentVector.length ∧
      calls = (List.zipWith (fun source attributes =>
        iterationCalls scene.freshId source.TypeName attributes)
        originalEntity.GetComponentVector copies).flatten ∧
      changedCalls calls
        = originalEntity.GetComponentVector.length + (copies.map List.length).sum := by
  simp only [PasteEntity, hscene, helem, hsrc] at hok
  cases hl : PasteEntity.componentLoop framework_.GetComponentManager 0
      originalEntity.GetComponentVector scene.CreateEntity.2 [] with
  | error fault => simp [hl] at hok
  | ok r =>
    obtain ⟨newEntity, calls1⟩ := r
    simp only [hl, Except.ok.injEq, Prod.mk.injEq] at hok
    obtain ⟨copies, h1, h2⟩ := componentLoop_calls _ _ _ _ _ _ _ hl
    have h3 : calls = (List.zipWith (fun source attributes =>
        iterationCalls scene.freshId source.TypeName attributes)
        originalEntity.GetComponentVector copies).flatten := by
      rw [← hok.2, h2]
      simp [SceneManager.CreateEntity, Entity.GetId]
    refine ⟨copies, h1, h3, ?_⟩
    rw [h3]
    exact changedCalls_iterations _ _ _ h1

/-- Witness of C8: pasting `torso`, whose one component takes two attribute copies. -/
theorem PasteEntity_ComponentChanged_calls_witness :
    PasteEntity Fixture.ParseString Fixture.meshWorld (some Fixture.clipboardOne)
      = .ok (Fixture.meshWorldPasted, Fixture.meshWorldCalls) ∧
    ∃ copies : List (List (String × String)),
      copies.length = Fixture.torso.GetComponentVector.length ∧
      Fixture.meshWorldCalls = (List.zipWith (fun source attributes =>
        iterationCalls 2 source.TypeName attributes)
        Fixture.torso.GetComponentVector copies).flatten ∧
      changedCalls Fixture.meshWorldCalls
        = Fixture.torso.GetComponentVector.length + (copies.map List.length).sum :=
  ⟨by decide, PasteEntity_ComponentChanged_calls Fixture.ParseString Fixture.meshWorld
    Fixture.meshWorldPasted ⟨[Fixture.torso]⟩ Fixture.clipboardOne ⟨"entity", [("id", "1")]⟩
    Fixture.torso Fixture.meshWorldCalls rfl (by decide) (by decide) (by decide)⟩

/-- C9 as stated fails: the source entity has two components, both of type `Light`, and
the entity `PasteEntity` creates has one. -/
theorem PasteEntity_merges_components_of_one_type :
    PasteEntity Fixture.ParseString Fixture.lampWorld (some Fixture.clipboardOne)
      = .ok (⟨Fixture.lightAndMesh, some ⟨[Fixture.lamps,
          ⟨2, [⟨"Light", "", true, [], AttributeChange.Disconnected⟩]⟩]⟩⟩,
        [Call.ComponentChanged 2 "Light" AttributeChange.Local,
         Call.ComponentChanged 2 "Light" AttributeChange.Local]) ∧
    Fixture.lamps.GetComponentVector.length = 2 := by
  decide

/-- C9 amended: when every component type of the source entity is registered and the
attribute loop stays in range (a source component at index `i` whose type is serializable
has no attribute or more than `i` attributes), `PasteEntity` completes and the new entity
has one component for each type name of the source vector, in the order in which the type
names first occur there. -/
theorem PasteEntity_component_types (ParseString : String → Nat) (framework_ : Framework)
    (scene : SceneManager) (temp_doc : QDomDocument) (ent_elem : QDomElement)
    (originalEntity : Entity)
    (hscene : framework_.worldScene = some scene)
    (helem : temp_doc.firstChildElement "entity" = some ent_elem)
    (hsrc : scene.GetEntity (ParseString (ent_elem.attribute "id")) = some originalEntity)
    (hreg : ∀ (i : Nat) (source : ComponentInterface),
      originalEntity.GetComponentVector[i]? = some source →
      ∃ f, framework_.componentManager.mFactories.find source.TypeName = some f ∧
        (f.serializable = true →
          source.GetAttributes = [] ∨ i < source.GetAttributes.length)) :
    ∃ after calls afterScene newEntity,
      PasteEntity ParseString framework_ (some temp_doc) = .ok (after, calls) ∧
      after.worldScene = some afterScene ∧
      afterScene.entities = scene.entities ++ [newEntity] ∧
      afterScene.GetEntity scene.freshId = some newEntity ∧
      newEntity.GetComponentVector.map ComponentInterface.TypeName
        = firstOccurrences (originalEntity.GetComponentVector.map ComponentInterface.TypeName) ∧
      ((originalEntity.GetComponentVector.map ComponentInterface.TypeName).Nodup →
        newEntity.GetComponentVector.map ComponentInterface.TypeName
          = originalEntity.GetComponentVector.map ComponentInterface.TypeName) := by
  have hb : Built framework_.GetComponentManager scene.CreateEntity.2 := by
    intro c hc
    simp [SceneManager.CreateEntity] at hc
  obtain ⟨newEntity, calls, hl, hid, htypes⟩ := componentLoop_total
    framework_.GetComponentManager 0 originalEntity.GetComponentVector scene.CreateEntity.2 []
    hb (by simpa [Framework.GetComponentManager] using hreg)
  have hid2 : newEntity.GetId = scene.freshId := by
    rw [hid]
    rfl
  have hent := store_createEntity scene newEntity hid2
  refine ⟨{ framework_ with worldScene := some (scene.CreateEntity.1.store newEntity) }, calls,
    scene.CreateEntity.1.store newEntity, newEntity, ?_, rfl, hent, ?_, ?_, ?_⟩
  · simp only [PasteEntity, hscene, helem, hsrc, hl]
  · have := getEntity_fresh scene newEntity hid2
    rw [← hent] at this
    exact this
  · rw [Entity.GetComponentVector, htypes]
    exact addTypes_nil _
  · intro hnodup
    rw [Entity.GetComponentVector, htypes]
    exact (addTypes_nil _).trans (firstOccurrences_of_nodup _ hnodup)

/-- Witness of C9 amended: pasting `torso`, whose one component is of a registered type
and has two attributes. -/
theorem PasteEntity_component_types_witness :
    ∃ after calls afterScene newEntity,
      PasteEntity Fixture.ParseString Fixture.meshWorld (some Fixture.clipboardOne)
        = .ok (after, calls) ∧
      after.worldScene = some afterScene ∧
      afterScene.entities = [Fixture.torso] ++ [newEntity] ∧
      afterScene.GetEntity 2 = some newEntity ∧
      newEntity.GetComponentVector.map ComponentInterface.TypeName
        = firstOccurrences (Fixture.torso.GetComponentVector.map ComponentInterface.TypeName) ∧
      ((Fixture.torso.GetComponentVector.map ComponentInterface.TypeName).Nodup →
        newEntity.GetComponentVector.map ComponentInterface.TypeName
          = Fixture.torso.GetComponentVector.map ComponentInterface.TypeName) :=
  PasteEntity_component_types Fixture.ParseString Fixture.meshWorld ⟨[Fixture.torso]⟩
    Fixture.clipboardOne ⟨"entity", [("id", "1")]⟩ Fixture.torso rfl (by decide) (by decide)
    (by
      intro i source h
      cases i with
      | zero =>
        simp only [Fixture.torso, Entity.GetComponentVector, List.getElem?_cons_zero,
          Option.some.injEq] at h
        subst h
        exact ⟨Fixture.meshFactory, by decide, fun _ => Or.inr (by decide)⟩
      | succ k =>
        simp [Fixture.torso, Entity.GetComponentVector] at h)

theorem copyEntity_componentLoop (entity_elem : QDomElement)
    (components : List ComponentInterface) (calls : List Call) :
    CopyEntity.componentLoop entity_elem components calls
      = calls ++ (components.filter ComponentInterface.IsSerializable).map
          (fun c => Call.SerializeTo c entity_elem) := by
  induction components generalizing calls with
  | nil => simp [CopyEntity.componentLoop]
  | cons c rest ih =>
    by_cases h : c.IsSerializable = true
    · simp [CopyEntity.componentLoop, h, ih]
    · simp [CopyEntity.componentLoop, h, ih]

/-- The `SerializeTo` calls `CopyEntity` makes for one selected entity pointer. -/
theorem copyEntity_entityLoop (entities : List EntityPtr) (temp_doc : QDomDocument)
    (calls : List Call) :
    CopyEntity.entityLoop entities temp_doc calls
      = (⟨temp_doc.children ++ entities.filterMap (Option.map CopyEntity.entityElement)⟩,
         calls ++ entities.flatMap (serializeCalls)) := by
  induction entities generalizing temp_doc calls with
  | nil => simp [CopyEntity.entityLoop]
  | cons ptr rest ih =>
    cases ptr with
    | none => simp [CopyEntity.entityLoop, ih, serializeCalls]
    | some entity =>
      simp [CopyEntity.entityLoop, ih, serializeCalls, copyEntity_componentLoop,
        QDomDocument.appendChild]

/-- C10: the `SerializeTo` calls of `CopyEntity` are, entity by entity in selection order,
the calls on the components of the component vector whose `IsSerializable()` is true, in
vector order, each with the `entity` element of that entity as parent; no call is made on
a component that is not serializable. The document holds those `entity` elements. -/
theorem CopyEntity_serializes_serializable (entities : List EntityPtr) :
    (CopyEntity entities).2 = entities.flatMap serializeCalls ∧
    (CopyEntity entities).1.children
      = entities.filterMap (Option.map CopyEntity.entityElement) := by
  simp [CopyEntity, copyEntity_entityLoop]

end ECEditor

namespace Foundation

theorem eraseEntry_assignEntry {V : Type} (k : String) (v : V) (l : List (String × V))
    (h : findEntry k l = none) : eraseEntry k (assignEntry k v l) = l := by
  induction l with
  | nil => simp [assignEntry, eraseEntry]
  | cons hd tl ih =>
    obtain ⟨k1, v1⟩ := hd
    have hne : k ≠ k1 := by
      intro e
      simp [findEntry, e] at h
    have htl : findEntry k tl = none := by
      simpa [findEntry, hne] using h
    simp only [assignEntry]
    split_ifs with h1
    · simp [eraseEntry]
    · simp [eraseEntry, hne, ih htl]

/-- C17: when `component` is not registered, `registerFactory(component, factory)`
completes, `unregisterFactory(component)` on the registry it leaves completes as well, and
the registry after both calls is the registry before them. -/
theorem registerFactory_unregisterFactory (self : ComponentManager) (component : String)
    (factory : ComponentFactoryInterfacePtr)
    (h : self.mFactories.find component = none) :
    ∃ registered, self.registerFactory component factory = .ok registered ∧
      registered.unregisterFactory component = .ok self := by
  refine ⟨⟨self.mFactories.assign component factory⟩, ?_, ?_⟩
  · simp [ComponentManager.registerFactory, assert, h, bind, Except.bind, pure, Except.pure]
  · have hfind : (self.mFactories.assign component factory).find component = some factory :=
      findEntry_assignEntry_self component factory _
    have herase : (self.mFactories.assign component factory).erase component
        = self.mFactories := by
      unfold StdMap.find at h
      simp only [StdMap.erase, StdMap.assign, eraseEntry_assignEntry component factory _ h]
    simp [ComponentManager.unregisterFactory, assert, hfind, herase, bind, Except.bind, pure,
      Except.pure]

/-- Witness of C17: `Mesh` is registered in, and unregistered from, the registry that holds
`Light` only. -/
theorem registerFactory_unregisterFactory_witness :
    Fixture.lightOnly.mFactories.find "Mesh" = none ∧
    ∃ registered, Fixture.lightOnly.registerFactory "Mesh" Fixture.meshFactory
        = .ok registered ∧
      registered.unregisterFactory "Mesh" = .ok Fixture.lightOnly :=
  ⟨by decide, registerFactory_unregisterFactory Fixture.lightOnly "Mesh" Fixture.meshFactory
    (by decide)⟩

end Foundation

namespace ECEditor

open Foundation Scene

/-- C11 as stated fails: without a scene `World` the call ends in the failed assertion and
does not return. -/
theorem PasteEntity_without_world_aborts :
    PasteEntity Fixture.ParseString Fixture.noWorld (some Fixture.clipboardOne)
      = .error Fault.assertionFailed ∧
    ¬ ∃ result, PasteEntity Fixture.ParseString Fixture.noWorld (some Fixture.clipboardOne)
      = .ok result := by
  have h : PasteEntity Fixture.ParseString Fixture.noWorld (some Fixture.clipboardOne)
      = .error Fault.assertionFailed := by decide
  refine ⟨h, ?_⟩
  rintro ⟨result, hok⟩
  rw [h] at hok
  cases hok

/-- C11 amended: when the framework has no scene `World`, `PasteEntity` stops at the failed
`assert(scene.get())`, whatever the clipboard holds: nothing after the assertion runs, so
no entity is created and no component is changed, and the call does not return. -/
theorem PasteEntity_without_world (ParseString : String → Nat) (framework_ : Framework)
    (clipboard : Option QDomDocument) (hscene : framework_.worldScene = none) :
    PasteEntity ParseString framework_ clipboard = .error Fault.assertionFailed := by
  simp only [PasteEntity, hscene]

/-- Witness of C11 amended: no scene `World` and a clipboard that does not parse. -/
theorem PasteEntity_without_world_witness :
    Fixture.noWorld.worldScene = none ∧
    PasteEntity Fixture.ParseString Fixture.noWorld none = .error Fault.assertionFailed :=
  ⟨rfl, PasteEntity_without_world Fixture.ParseString Fixture.noWorld none rfl⟩

/-- C12: when the scene `World` exists and the clipboard text does not parse, or parses to
a document without a top-level `entity` element, `PasteEntity` returns the framework as it
was: no entity is created, no component added and no attribute changed. -/
theorem PasteEntity_malformed_clipboard (ParseString : String → Nat) (framework_ : Framework)
    (scene : SceneManager) (clipboard : Option QDomDocument)
    (hscene : framework_.worldScene = some scene)
    (hbad : clipboard = none ∨
      ∃ temp_doc, clipboard = some temp_doc ∧ temp_doc.firstChildElement "entity" = none) :
    PasteEntity ParseString framework_ clipboard = .ok (framework_, []) := by
  rcases hbad with h | ⟨temp_doc, h, helem⟩
  · simp only [PasteEntity, hscene, h]
  · simp only [PasteEntity, hscene, h, helem]

/-- Witness of C12: a clipboard document whose only element is not an `entity` element. -/
theorem PasteEntity_malformed_clipboard_witness :
    Fixture.clipboardOther.firstChildElement "entity" = none ∧
    PasteEntity Fixture.ParseString Fixture.meshWorld (some Fixture.clipboardOther)
      = .ok (Fixture.meshWorld, []) :=
  ⟨by decide, PasteEntity_malformed_clipboard Fixture.ParseString Fixture.meshWorld
    ⟨[Fixture.torso]⟩ (some Fixture.clipboardOther) rfl
    (Or.inr ⟨Fixture.clipboardOther, rfl, by decide⟩)⟩

/-- C13 as stated fails: with a clipboard text that does not parse, `PasteEntity` returns
without creating an entity and without any call, so without a log message. -/
theorem PasteEntity_unparsed_clipboard_silent :
    PasteEntity Fixture.ParseString Fixture.meshWorld none = .ok (Fixture.meshWorld, []) := by
  decide

/-- C13 amended: a call of `PasteEntity` that cannot copy an entity (the source entity is
not found whenever the clipboard document has an `entity` element) either stops at the
failed assertion, when there is no scene `World`, or returns the framework as it was; in
the latter case it logs a warning exactly when the clipboard document has an `entity`
element, that is when the source entity was looked up and not found. -/
theorem PasteEntity_logs_when_source_missing (ParseString : String → Nat)
    (framework_ : Framework) (clipboard : Option QDomDocument)
    (hmiss : ∀ scene temp_doc ent_elem, framework_.worldScene = some scene →
      clipboard = some temp_doc → temp_doc.firstChildElement "entity" = some ent_elem →
      scene.GetEntity (ParseString (ent_elem.attribute "id")) = none) :
    (framework_.worldScene = none ∧
      PasteEntity ParseString framework_ clipboard = .error Fault.assertionFailed) ∨
    ∃ calls, PasteEntity ParseString framework_ clipboard = .ok (framework_, calls) ∧
      ((∃ message, Call.LogWarning message ∈ calls) ↔
        ∃ temp_doc ent_elem, clipboard = some temp_doc ∧
          temp_doc.firstChildElement "entity" = some ent_elem) := by
  cases hscene : framework_.worldScene with
  | none => exact Or.inl ⟨rfl, by simp only [PasteEntity, hscene]⟩
  | some scene =>
    right
    cases hclip : clipboard with
    | none => exact ⟨[], by simp only [PasteEntity, hscene], by simp⟩
    | some temp_doc =>
      cases helem : temp_doc.firstChildElement "entity" with
      | none => exact ⟨[], by simp only [PasteEntity, hscene, helem], by simp [helem]⟩
      | some ent_elem =>
        have hget := hmiss scene temp_doc ent_elem hscene hclip helem
        refine ⟨[Call.LogWarning (PasteEntity.warning (ent_elem.attribute "id"))], ?_, ?_⟩
        · simp only [PasteEntity, hscene, helem, hget]
        · simp [helem]

/-- Witness of C13 amended: the clipboard names an entity that the scene lacks, and the
warning is logged. -/
theorem PasteEntity_logs_when_source_missing_witness :
    (Fixture.meshWorld.worldScene = none ∧
      PasteEntity Fixture.ParseString Fixture.meshWorld (some Fixture.clipboardSeven)
        = .error Fault.assertionFailed) ∨
    ∃ calls, PasteEntity Fixture.ParseString Fixture.meshWorld (some Fixture.clipboardSeven)
        = .ok (Fixture.meshWorld, calls) ∧
      ((∃ message, Call.LogWarning message ∈ calls) ↔
        ∃ temp_doc ent_elem, some Fixture.clipboardSeven = some temp_doc ∧
          temp_doc.firstChildElement "entity" = some ent_elem) :=
  PasteEntity_logs_when_source_missing Fixture.ParseString Fixture.meshWorld
    (some Fixture.clipboardSeven)
    (by
      intro scene temp_doc ent_elem h1 h2 h3
      cases h1
      cases h2
      have h4 : ent_elem = ⟨"entity", [("id", "7")]⟩ := by
        have h5 : Fixture.clipboardSeven.firstChildElement "entity"
            = some ⟨"entity", [("id", "7")]⟩ := by decide
        rw [h5] at h3
        exact (Option.some.inj h3).symm
      subst h4
      decide)

/-- C15, the code at a failing input: for the entity with the id 2^31 `CopyEntity` writes
the id attribute `-2147483648`, which is not the decimal form `2147483648` of the id. -/
theorem CopyEntity_id_of_far_entity :
    (CopyEntity [some Fixture.farEntity]).1
      = ⟨[⟨"entity", [("id", "-2147483648")]⟩]⟩ ∧
    Nat.repr Fixture.farEntity.GetId = "2147483648" := by
  decide

/-- C18, the code at a failing input: the second component of the source entity, at index
1, has one attribute; the attribute loop reads `attributes[1]`, past the end of the
vector. -/
theorem PasteEntity_reads_past_attributes :
    PasteEntity Fixture.ParseString Fixture.shedWorld (some Fixture.clipboardOne)
      = .error Fault.indexOutOfRange := by
  decide

theorem getSelectedEntities_loop (toInt : String → Int) (scene : SceneManager)
    (items : List QListWidgetItem) (ret : List EntityPtr) :
    GetSelectedEntities.loop toInt scene items ret
      = ret ++ ((items.filter (fun item => item.isSelected)).filterMap
          (fun item => scene.GetEntity (toEntityId (toInt item.text)))).map some := by
  induction items generalizing ret with
  | nil => simp [GetSelectedEntities.loop]
  | cons item rest ih =>
    by_cases hsel : item.isSelected = true
    · cases hget : scene.GetEntity (toEntityId (toInt item.text)) with
      | none => simp [GetSelectedEntities.loop, hsel, hget, ih]
      | some entity => simp [GetSelectedEntities.loop, hsel, hget, ih]
    · simp [GetSelectedEntities.loop, hsel, ih]

/-- C19: without an entity list or without a default world scene the result is empty;
otherwise it holds, in row order, for each selected row the entity that the scene returns
for the integer value of the text of the row, and nothing for a selected row whose id has
no entity in the scene. No pointer of the result is empty, and each entity of the result
is an entity of the scene with the id of a selected row. -/
theorem GetSelectedEntities_spec (toInt : String → Int) (entity_list_ : Option QListWidget)
    (defaultWorldScene : ScenePtr) :
    GetSelectedEntities toInt entity_list_ defaultWorldScene
      = (match entity_list_, defaultWorldScene with
        | some list, some scene =>
          ((list.items.filter (fun item => item.isSelected)).filterMap
            (fun item => scene.GetEntity (toEntityId (toInt item.text)))).map some
        | _, _ => []) ∧
    (∀ ptr ∈ GetSelectedEntities toInt entity_list_ defaultWorldScene, ptr ≠ none) ∧
    (∀ list scene entity, entity_list_ = some list → defaultWorldScene = some scene →
      some entity ∈ GetSelectedEntities toInt entity_list_ defaultWorldScene →
      entity ∈ scene.entities ∧
      ∃ item ∈ list.items, item.isSelected = true ∧
        entity.GetId = toEntityId (toInt item.text)) := by
  have heq : GetSelectedEntities toInt entity_list_ defaultWorldScene
      = (match entity_list_, defaultWorldScene with
        | some list, some scene =>
          ((list.items.filter (fun item => item.isSelected)).filterMap
            (fun item => scene.GetEntity (toEntityId (toInt item.text)))).map some
        | _, _ => []) := by
    cases entity_list_ with
    | none => rfl
    | some list =>
      cases defaultWorldScene with
      | none => rfl
      | some scene => simp [GetSelectedEntities, getSelectedEntities_loop]
  refine ⟨heq, ?_, ?_⟩
  · intro ptr hptr
    rw [heq] at hptr
    cases entity_list_ with
    | none => simp at hptr
    | some list =>
      cases defaultWorldScene with
      | none => simp at hptr
      | some scene =>
        simp only [List.mem_map] at hptr
        obtain ⟨e, _, rfl⟩ := hptr
        simp
  · intro list scene entity hl hs hmem
    subst hl
    subst hs
    rw [heq] at hmem
    simp only [List.mem_map, Option.some.injEq, exists_eq_right, List.mem_filterMap,
      List.mem_filter] at hmem
    obtain ⟨item, ⟨hitem, hsel⟩, hget⟩ := hmem
    unfold SceneManager.GetEntity at hget
    have hid := List.find?_some hget
    exact ⟨List.mem_of_find?_eq_some hget, item, hitem, hsel, by simpa using hid⟩

/-- Witness of C19: rows `1`, `2`, `5` with the first and the last selected, on a scene that
holds the entities 1 and 2. -/
theorem GetSelectedEntities_spec_witness :
    GetSelectedEntities Fixture.toInt (some Fixture.rows)
        (some ⟨[Fixture.torso, Fixture.lantern]⟩) = [some Fixture.torso] ∧
    ∀ ptr ∈ GetSelectedEntities Fixture.toInt (some Fixture.rows)
        (some ⟨[Fixture.torso, Fixture.lantern]⟩), ptr ≠ none :=
  ⟨by decide, (GetSelectedEntities_spec Fixture.toInt (some Fixture.rows)
    (some ⟨[Fixture.torso, Fixture.lantern]⟩)).2.1⟩

theorem pointee_of_fresh (changed : List Entity) (entity : Entity)
    (h : ∀ x ∈ changed, x.GetId ≠ entity.GetId) : pointee changed entity = entity := by
  have hnone : changed.find? (fun e => decide (e.GetId = entity.GetId)) = none := by
    rw [List.find?_eq_none]
    intro x hx
    simpa using h x hx
  simp only [pointee, hnone]

theorem findComponentNamed_find (type_name name : String)
    (components : List ComponentInterface) :
    (findComponentNamed type_name name components).bind (fun p => components[p]?)
      = components.find? (fun c => decide (c.TypeName = type_name ∧ c.Name = name)) ∧
    (findComponentNamed type_name name components = none ↔
      components.find? (fun c => decide (c.TypeName = type_name ∧ c.Name = name)) = none) := by
  induction components with
  | nil => simp [findComponentNamed]
  | cons c rest ih =>
    by_cases h : c.TypeName = type_name ∧ c.Name = name
    · simp [findComponentNamed, h]
    · obtain ⟨ih1, ih2⟩ := ih
      simp only [findComponentNamed, h, if_false, List.find?_cons, decide_False]
      constructor
      · rw [← ih1]
        cases findComponentNamed type_name name rest with
        | none => rfl
        | some p => simp
      · rw [← ih2]
        cases findComponentNamed type_name name rest with
        | none => simp
        | some p => simp

theorem deleteComponent_loop (componentType name : String) (rest : List Entity)
    (changed : List Entity) (calls : List EntityCall)
    (hdistinct : (rest.map Entity.GetId).Nodup)
    (hfresh : ∀ e ∈ rest, ∀ x ∈ changed, x.GetId ≠ e.GetId) :
    ∃ changed1, DeleteComponent.entityLoop componentType name (rest.map some) changed calls
      = .ok (changed1, calls ++ rest.flatMap (removalCalls componentType name)) := by
  induction rest generalizing changed calls with
  | nil => exact ⟨changed, by simp [DeleteComponent.entityLoop]⟩
  | cons entity rest ih =>
    rw [List.map_cons, List.nodup_cons] at hdistinct
    have hp : pointee changed entity = entity :=
      pointee_of_fresh changed entity (hfresh entity (List.mem_cons_self _ _))
    have hrest : ∀ e ∈ rest, ∀ x ∈ changed, x.GetId ≠ e.GetId :=
      fun e he => hfresh e (List.mem_cons_of_mem _ he)
    obtain ⟨hbind, hnone⟩ := findComponentNamed_find componentType name entity.components
    simp only [List.map_cons, DeleteComponent.entityLoop, hp, List.flatMap_cons]
    cases hget : entity.GetComponent componentType name with
    | none =>
      simp only [Entity.GetComponent] at hget
      obtain ⟨changed1, h1⟩ := ih changed calls hdistinct.2 hrest
      refine ⟨changed1, ?_⟩
      rw [h1]
      simp only [removalCalls, hnone.1 hget, List.nil_append]
    | some p =>
      simp only [Entity.GetComponent] at hget
      rw [hget] at hbind
      have hbind1 : entity.components[p]? = entity.components.find?
          (fun c => decide (c.TypeName = componentType ∧ c.Name = name)) := hbind
      cases hfind : entity.components.find?
          (fun c => decide (c.TypeName = componentType ∧ c.Name = name)) with
      | none =>
        rw [hnone.2 hfind] at hget
        cases hget
      | some c =>
        have hderef : entity.deref p = some c := by
          rw [Entity.deref, hbind1, hfind]
        have hfresh1 : ∀ e ∈ rest,
            ∀ x ∈ entity.RemoveComponent p AttributeChange.Local :: changed,
              x.GetId ≠ e.GetId := by
          intro e he x hx
          rcases List.mem_cons.1 hx with rfl | hx
          · intro hid
            exact hdistinct.1 (List.mem_map.2 ⟨e, he, hid.symm⟩)
          · exact hrest e he x hx
        obtain ⟨changed1, h1⟩ := ih _
          (calls ++ [EntityCall.RemoveComponent entity.GetId (entity.deref p)
              AttributeChange.Local,
            EntityCall.BoldEntityListItem entity.GetId false]) hdistinct.2 hfresh1
        refine ⟨changed1, ?_⟩
        show DeleteComponent.entityLoop componentType name (List.map some rest)
          (entity.RemoveComponent p AttributeChange.Local :: changed) _ = _
        rw [h1]
        simp only [removalCalls, hfind, hderef, List.append_assoc]

/-- C20: with an empty type `DeleteComponent` returns at once, with the entities as they
were and no call made; with another type, on a selection of different entities, the call
completes and its calls are, entity by entity in selection order, for each entity that
has a component of the type and the name one `RemoveComponent(component, Local)` on that
entity with that component, never the empty pointer, followed by the call that takes the
bold face from the list item; no call is made for the other entities. -/
theorem DeleteComponent_calls (componentType name : String) (entities : List Entity)
    (hdistinct : (entities.map Entity.GetId).Nodup) :
    (componentType = "" →
      DeleteComponent componentType name (entities.map some)
        = .ok (entities.map some, [])) ∧
    (componentType ≠ "" →
      ∃ after, DeleteComponent componentType name (entities.map some)
        = .ok (after, entities.flatMap (removalCalls componentType name))) := by
  constructor
  · intro h
    simp [DeleteComponent, h]
  · intro h
    obtain ⟨changed, hloop⟩ := deleteComponent_loop componentType name entities [] []
      hdistinct (by simp)
    refine ⟨pointees changed (entities.map some), ?_⟩
    simp only [DeleteComponent, h, if_false, hloop, List.nil_append]

/-- Witness of C20: `torso` and `lantern` are selected and the `Light` component called
`keylight` is deleted; one `RemoveComponent` is made, on `lantern`. -/
theorem DeleteComponent_calls_witness :
    ([Fixture.torso, Fixture.lantern].map Entity.GetId).Nodup ∧
    "Light" ≠ "" ∧
    [Fixture.torso, Fixture.lantern].flatMap (removalCalls "Light" "keylight")
      = [EntityCall.RemoveComponent 2
          (some ⟨"Light", "keylight", true, [], AttributeChange.Local⟩)
          AttributeChange.Local,
        EntityCall.BoldEntityListItem 2 false] ∧
    ∃ after, DeleteComponent "Light" "keylight" ([Fixture.torso, Fixture.lantern].map some)
      = .ok (after,
          [Fixture.torso, Fixture.lantern].flatMap (removalCalls "Light" "keylight")) :=
  ⟨by decide, by decide, by decide,
    (DeleteComponent_calls "Light" "keylight" [Fixture.torso, Fixture.lantern]
      (by decide)).2 (by decide)⟩

end ECEditor

namespace ECEditor

open Foundation Scene

theorem addUniqueListItem_loop_some (name : String) (i : Nat) (items : List QListWidgetItem)
    (r : Nat) (h : AddUniqueListItem.loop name i items = some r) :
    ∃ k, r = i + k ∧ (items[k]?).map QListWidgetItem.text = some name ∧
      ∀ j, j < k → ∀ item, items[j]? = some item → item.text ≠ name := by
  induction items generalizing i with
  | nil => simp [AddUniqueListItem.loop] at h
  | cons item rest ih =>
    simp only [AddUniqueListItem.loop] at h
    split_ifs at h with hm
    · cases h
      exact ⟨0, rfl, by simp [hm], fun j hj => absurd hj (Nat.not_lt_zero j)⟩
    · obtain ⟨k, hk, htext, hfirst⟩ := ih (i + 1) h
      refine ⟨k + 1, by omega, by simpa using htext, ?_⟩
      intro j hj it hit
      cases j with
      | zero =>
        simp only [List.getElem?_cons_zero, Option.some.injEq] at hit
        rw [← hit]
        exact hm
      | succ j =>
        simp only [List.getElem?_cons_succ] at hit
        exact hfirst j (by omega) it hit

theorem addUniqueListItem_loop_none (name : String) (i : Nat) (items : List QListWidgetItem) :
    AddUniqueListItem.loop name i items = none ↔ ∀ item ∈ items, item.text ≠ name := by
  induction items generalizing i with
  | nil => simp [AddUniqueListItem.loop]
  | cons item rest ih =>
    by_cases hm : item.text = name
    · simp [AddUniqueListItem.loop, hm]
    · simp [AddUniqueListItem.loop, hm, ih]

/-- C22: the row `AddUniqueListItem` returns is a row of the resulting list and the item
of that row has the text `name`; when an item had the text before, the list is unchanged
and no earlier row had the text; otherwise the resulting list is the old list with an
item of that text appended, and the row is the old item count. -/
theorem AddUniqueListItem_spec (list : QListWidget) (name : String) :
    ((AddUniqueListItem list name).1.items[(AddUniqueListItem list name).2]?).map
        QListWidgetItem.text = some name ∧
    ((∃ item ∈ list.items, item.text = name) →
      (AddUniqueListItem list name).1 = list ∧
      ∀ j, j < (AddUniqueListItem list name).2 →
        ∀ item, list.items[j]? = some item → item.text ≠ name) ∧
    ((∀ item ∈ list.items, item.text ≠ name) →
      (AddUniqueListItem list name).1.items = list.items ++ [⟨name, false⟩] ∧
      (AddUniqueListItem list name).2 = list.count) := by
  cases hl : AddUniqueListItem.loop name 0 list.items with
  | none =>
    have hall := (addUniqueListItem_loop_none name 0 list.items).1 hl
    have hres : AddUniqueListItem list name
        = (list.addItem name, (list.addItem name).count - 1) := by
      simp only [AddUniqueListItem, hl]
    rw [hres]
    refine ⟨?_, ?_, ?_⟩
    · simp [QListWidget.addItem, QListWidget.count]
    · rintro ⟨item, hitem, htext⟩
      exact absurd htext (hall item hitem)
    · intro _
      simp [QListWidget.addItem, QListWidget.count]
  | some r =>
    obtain ⟨k, hk, htext, hfirst⟩ := addUniqueListItem_loop_some name 0 list.items r hl
    have hres : AddUniqueListItem list name = (list, r) := by
      simp only [AddUniqueListItem, hl]
    have hr : r = k := by omega
    subst hr
    rw [hres]
    refine ⟨htext, fun _ => ⟨rfl, hfirst⟩, ?_⟩
    intro hall
    have := (addUniqueListItem_loop_none name 0 list.items).2 hall
    rw [this] at hl
    cases hl

/-- Witness of C22: the text `2` is in the second row of the list, the text `7` is new. -/
theorem AddUniqueListItem_spec_witness :
    AddUniqueListItem Fixture.rows "2" = (Fixture.rows, 1) ∧
    (AddUniqueListItem Fixture.rows "7").2 = 3 ∧
    ((AddUniqueListItem Fixture.rows "7").1.items[(AddUniqueListItem Fixture.rows "7").2]?).map
        QListWidgetItem.text = some "7" :=
  ⟨by decide, by decide, (AddUniqueListItem_spec Fixture.rows "7").1⟩

theorem removeEntity_loop_fuel (text : String) (fuel extra i : Nat) (list : QListWidget)
    (h : list.count ≤ i + fuel) :
    RemoveEntity.loop text (fuel + extra) i list = RemoveEntity.loop text fuel i list := by
  induction fuel generalizing i list with
  | zero =>
    have hnone : list.items[i]? = none := by
      apply List.getElem?_eq_none
      simpa [QListWidget.count] using h
    cases extra with
    | zero => rfl
    | succ e =>
      rw [Nat.zero_add]
      simp only [RemoveEntity.loop, hnone]
  | succ n ih =>
    have hsucc : n + 1 + extra = (n + extra) + 1 := by omega
    rw [hsucc]
    simp only [RemoveEntity.loop]
    cases hitem : list.items[i]? with
    | none => rfl
    | some item =>
      simp only
      split_ifs with hm
      · apply ih
        have hlt : i < list.items.length := by
          rcases List.getElem?_eq_some.1 hitem with ⟨hlt, _⟩
          exact hlt
        simp only [QListWidget.count, QListWidget.takeItem, List.length_eraseIdx, hlt,
          if_true] at h ⊢
        omega
      · apply ih
        omega

/-- C24, the code at a failing input: for the id 2^31 `AddEntity` writes the text
`-2147483648` and `RemoveEntity` searches for `2147483648`; the item stays in the list,
which was empty before. -/
theorem AddEntity_RemoveEntity_far_id :
    setNum (toInt 2147483648) = "-2147483648" ∧
    number 2147483648 = "2147483648" ∧
    RemoveEntity (AddEntity true (some ⟨[]⟩) 2147483648) 2147483648
      = some ⟨[⟨"-2147483648", true⟩]⟩ := by
  decide

theorem take_eraseIdx_self {α : Type} (l : List α) (i : Nat) :
    (l.eraseIdx i).take i = l.take i := by
  induction l generalizing i with
  | nil => simp
  | cons hd tl ih =>
    cases i with
    | zero => simp
    | succ j => simp [List.eraseIdx, ih]

theorem drop_eraseIdx_self {α : Type} (l : List α) (i : Nat) :
    (l.eraseIdx i).drop i = l.drop (i + 1) := by
  induction l generalizing i with
  | nil => simp
  | cons hd tl ih =>
    cases i with
    | zero => simp
    | succ j => simp [List.eraseIdx, ih]

theorem deleteEntitiesFromList_loop (next : Nat) (list : QListWidget)
    (h : next ≤ list.count) :
    DeleteEntitiesFromList.loop next list
      = .ok ⟨(list.items.take next).filter (fun item => !item.isSelected)
          ++ list.items.drop next⟩ := by
  induction next generalizing list with
  | zero => simp [DeleteEntitiesFromList.loop]
  | succ i ih =>
    have hlt : i < list.items.length := h
    have hitem : list.items[i]? = some list.items[i] := List.getElem?_eq_getElem hlt
    have htake : list.items.take (i + 1) = list.items.take i ++ [list.items[i]] := by
      rw [List.take_succ, hitem]
      rfl
    simp only [DeleteEntitiesFromList.loop, hitem]
    split_ifs with hsel
    · rw [ih]
      · simp only [QListWidget.takeItem, take_eraseIdx_self, drop_eraseIdx_self, htake,
          List.filter_append, List.filter_cons, hsel, Bool.not_true, Bool.false_eq_true,
          if_false, List.filter_nil, List.append_nil]
      · simp only [QListWidget.count, QListWidget.takeItem, List.length_eraseIdx, hlt,
          if_true]
        omega
    · rw [ih list (Nat.le_of_lt hlt)]
      have hdrop : list.items.drop i = list.items[i] :: list.items.drop (i + 1) :=
        List.drop_eq_getElem_cons hlt
      have hkeep : List.filter (fun item => !item.isSelected) [list.items[i]]
          = [list.items[i]] := by
        simp [hsel]
      rw [htake, hdrop, List.filter_append, hkeep, List.append_assoc]
      rfl

/-- C25: when the entity list has the focus, the list after `DeleteEntitiesFromList`
consists of the items that were not selected, in their order; without the focus, and
without an entity list, nothing changes. The call always completes. -/
theorem DeleteEntitiesFromList_spec (entity_list_ : Option QListWidget) (hasFocus : Bool) :
    DeleteEntitiesFromList entity_list_ hasFocus
      = .ok (if hasFocus then
          entity_list_.map (fun list =>
            (⟨list.items.filter (fun item => !item.isSelected)⟩ : QListWidget))
        else entity_list_) := by
  cases entity_list_ with
  | none => cases hasFocus <;> rfl
  | some list =>
    cases hasFocus with
    | false => rfl
    | true =>
      simp only [DeleteEntitiesFromList, if_true,
        deleteEntitiesFromList_loop list.count list (Nat.le_refl _)]
      simp [QListWidget.count]

theorem setNum_toInt_eq_number (entity_id : Nat) (h : entity_id < 2 ^ 31) :
    setNum (toInt entity_id) = number entity_id := by
  have hmod : entity_id % 2 ^ 32 = entity_id := Nat.mod_eq_of_lt (by omega)
  simp only [setNum, toInt, number, hmod, h, if_true]
  rfl

theorem refresh_unboldLoop (toInt : String → Int) (items : List QListWidgetItem)
    (calls : List BrowserCall) :
    RefreshPropertyBrowser.unboldLoop toInt items calls
      = calls ++ items.map
          (fun item => BrowserCall.BoldEntityListItem (toEntityId (toInt item.text)) false) := by
  induction items generalizing calls with
  | nil => simp [RefreshPropertyBrowser.unboldLoop]
  | cons item rest ih => simp [RefreshPropertyBrowser.unboldLoop, ih]

theorem refresh_entityLoop (entities : List Entity) (selected noneSelected : List Nat)
    (calls : List BrowserCall) :
    RefreshPropertyBrowser.entityLoop (entities.map some) selected noneSelected calls
      = .ok (entities.foldl (fun s e => insertId e.GetId s) selected,
          entities.foldl (fun s e => eraseId e.GetId s) noneSelected,
          calls ++ entities.map (fun e => BrowserCall.AddNewEntity e.GetId)) := by
  induction entities generalizing selected noneSelected calls with
  | nil => simp [RefreshPropertyBrowser.entityLoop]
  | cons e rest ih => simp [RefreshPropertyBrowser.entityLoop, ih]

theorem mem_insertId (id x : Nat) (set : List Nat) :
    x ∈ insertId id set ↔ x = id ∨ x ∈ set := by
  induction set with
  | nil => simp [insertId]
  | cons head rest ih =>
    simp only [insertId]
    split_ifs with h1 h2
    · simp
    · subst h2
      simp
    · simp only [List.mem_cons, ih]
      tauto

theorem pairwise_insertId (id : Nat) (set : List Nat) (h : set.Pairwise (· < ·)) :
    (insertId id set).Pairwise (· < ·) := by
  induction set with
  | nil => simp [insertId]
  | cons head rest ih =>
    rw [List.pairwise_cons] at h
    simp only [insertId]
    split_ifs with h1 h2
    · refine List.pairwise_cons.2 ⟨?_, List.pairwise_cons.2 h⟩
      intro a ha
      rcases List.mem_cons.1 ha with rfl | ha
      · exact h1
      · exact lt_trans h1 (h.1 a ha)
    · exact List.pairwise_cons.2 h
    · refine List.pairwise_cons.2 ⟨?_, ih h.2⟩
      intro a ha
      rcases (mem_insertId id a rest).1 ha with rfl | ha
      · omega
      · exact h.1 a ha

theorem foldl_insertId (entities : List Entity) (selected : List Nat)
    (h : selected.Pairwise (· < ·)) :
    (∀ id, id ∈ entities.foldl (fun s e => insertId e.GetId s) selected ↔
      id ∈ selected ∨ ∃ e ∈ entities, e.GetId = id) ∧
    (entities.foldl (fun s e => insertId e.GetId s) selected).Pairwise (· < ·) := by
  induction entities generalizing selected with
  | nil => simp [h]
  | cons e rest ih =>
    obtain ⟨h1, h2⟩ := ih (insertId e.GetId selected) (pairwise_insertId _ _ h)
    refine ⟨?_, h2⟩
    intro id
    simp only [List.foldl_cons, h1, mem_insertId, List.mem_cons, exists_eq_or_imp]
    constructor
    · rintro ((h3 | h3) | h3)
      · exact Or.inr (Or.inl h3.symm)
      · exact Or.inl h3
      · exact Or.inr (Or.inr h3)
    · rintro (h3 | h3 | h3)
      · exact Or.inl (Or.inr h3)
      · exact Or.inl (Or.inl h3.symm)
      · exact Or.inr h3

theorem foldl_eraseId (entities : List Entity) (noneSelected : List Nat) :
    entities.foldl (fun s e => eraseId e.GetId s) noneSelected
      = noneSelected.filter (fun id => decide (id ∉ entities.map Entity.GetId)) := by
  induction entities generalizing noneSelected with
  | nil => simp
  | cons e rest ih =>
    rw [List.foldl_cons, ih]
    simp only [eraseId, List.filter_filter]
    apply List.filter_congr
    intro id _
    by_cases h1 : id = e.GetId
    · simp [h1]
    · by_cases h2 : id ∈ rest.map Entity.GetId
      · simp [h1, h2]
      · simp [h1, h2]

theorem refresh_removeLoop (scene : SceneManager) (ids : List Nat) (calls : List BrowserCall) :
    RefreshPropertyBrowser.removeLoop scene ids calls
      = calls ++ (ids.filter (fun id => (scene.GetEntity id).isSome)).flatMap
          (fun id => [BrowserCall.BoldEntityListItem id false, BrowserCall.RemoveEntity id]) := by
  induction ids generalizing calls with
  | nil => simp [RefreshPropertyBrowser.removeLoop]
  | cons id rest ih =>
    cases hget : scene.GetEntity id with
    | none => simp [RefreshPropertyBrowser.removeLoop, hget, ih]
    | some entity =>
      have hid : entity.GetId = id := by
        unfold SceneManager.GetEntity at hget
        simpa using List.find?_some hget
      simp [RefreshPropertyBrowser.removeLoop, hget, ih, hid]

/-- C26 as stated fails: the id 1 is tracked and no row is selected; the branch for the
empty selection clears the browser and returns, so the id 1 is still tracked after the
call although nothing is selected, and the browser was not asked to remove the entity 1,
which exists in the scene. -/
theorem RefreshPropertyBrowser_empty_selection :
    GetSelectedEntities Fixture.toInt (some Fixture.idle)
        (some ⟨[Fixture.torso, Fixture.lantern]⟩) = [] ∧
    RefreshPropertyBrowser Fixture.toInt true (some ⟨[Fixture.torso, Fixture.lantern]⟩)
        (some Fixture.idle) [1]
      = .ok ([1], [BrowserCall.clear, BrowserCall.BoldEntityListItem 1 false]) := by
  decide

/-- C26 amended: with a browser and a default scene, let `entities` be the entities that
`GetSelectedEntities()` returns. When there are some, the call completes, the tracked set
is afterwards the set of their ids, and the browser calls are `hide`, one `AddNewEntity`
for each of them, one `RemoveEntity` (after the call that takes the bold face from the
list item) for each previously tracked id that is no longer selected and still exists in
the scene, then `show` and `UpdateBrowser`. When there are none and the entity list
exists, the call completes with the browser cleared and the bold face taken from every
list item: `RemoveEntity` is not called. -/
theorem RefreshPropertyBrowser_tracks_selection (toInt : String → Int) (scene : SceneManager)
    (entity_list_ : Option QListWidget) (tracked : List Nat) (entities : List Entity)
    (hsel : GetSelectedEntities toInt entity_list_ (some scene) = entities.map some) :
    (entities ≠ [] →
      ∃ selected,
        RefreshPropertyBrowser toInt true (some scene) entity_list_ tracked
          = .ok (selected,
              [BrowserCall.hide] ++ entities.map (fun e => BrowserCall.AddNewEntity e.GetId)
                ++ (staleIds scene tracked entities).flatMap
                  (fun id => [BrowserCall.BoldEntityListItem id false,
                    BrowserCall.RemoveEntity id])
                ++ [BrowserCall.show, BrowserCall.UpdateBrowser]) ∧
        (∀ id, id ∈ selected ↔ ∃ e ∈ entities, e.GetId = id) ∧
        selected.Pairwise (· < ·)) ∧
    (entities = [] → ∀ list, entity_list_ = some list →
      ∃ selected,
        RefreshPropertyBrowser toInt true (some scene) entity_list_ tracked
          = .ok (selected,
              BrowserCall.clear :: list.items.map (fun item =>
                BrowserCall.BoldEntityListItem (toEntityId (toInt item.text)) false))) := by
  constructor
  · intro hne
    have hlen : ¬ (entities.map some).length = 0 := by
      simpa using hne
    obtain ⟨hmem, hsorted⟩ := foldl_insertId entities [] List.Pairwise.nil
    refine ⟨entities.foldl (fun s e => insertId e.GetId s) [], ?_, ?_, hsorted⟩
    · simp only [RefreshPropertyBrowser, Bool.not_true, Bool.false_eq_true, if_false, hsel,
        hlen, refresh_entityLoop, refresh_removeLoop, foldl_eraseId, staleIds]
    · intro id
      rw [hmem id]
      simp
  · intro hempty list hlist
    subst hempty
    subst hlist
    refine ⟨tracked, ?_⟩
    simp only [RefreshPropertyBrowser, Bool.not_true, Bool.false_eq_true, if_false, hsel,
      List.map_nil, List.length_nil, if_true, refresh_unboldLoop, List.singleton_append]

/-- Witness of C26 amended: the entity 2 is selected while the ids 1 and 7 are tracked;
the entity 1 exists and is removed from the browser, the id 7 names no entity. -/
theorem RefreshPropertyBrowser_tracks_selection_witness :
    GetSelectedEntities Fixture.toInt (some ⟨[⟨"1", false⟩, ⟨"2", true⟩]⟩)
        (some ⟨[Fixture.torso, Fixture.lantern]⟩) = [Fixture.lantern].map some ∧
    RefreshPropertyBrowser Fixture.toInt true (some ⟨[Fixture.torso, Fixture.lantern]⟩)
        (some ⟨[⟨"1", false⟩, ⟨"2", true⟩]⟩) [1, 7]
      = .ok ([2], [BrowserCall.hide, BrowserCall.AddNewEntity 2,
          BrowserCall.BoldEntityListItem 1 false, BrowserCall.RemoveEntity 1,
          BrowserCall.show, BrowserCall.UpdateBrowser]) ∧
    ∃ selected,
      RefreshPropertyBrowser Fixture.toInt true (some ⟨[Fixture.torso, Fixture.lantern]⟩)
          (some ⟨[⟨"1", false⟩, ⟨"2", true⟩]⟩) [1, 7]
        = .ok (selected,
            [BrowserCall.hide]
              ++ [Fixture.lantern].map (fun e => BrowserCall.AddNewEntity e.GetId)
              ++ (staleIds ⟨[Fixture.torso, Fixture.lantern]⟩ [1, 7]
                  [Fixture.lantern]).flatMap
                (fun id => [BrowserCall.BoldEntityListItem id false,
                  BrowserCall.RemoveEntity id])
              ++ [BrowserCall.show, BrowserCall.UpdateBrowser]) ∧
      (∀ id, id ∈ selected ↔ ∃ e ∈ [Fixture.lantern], e.GetId = id) ∧
      selected.Pairwise (· < ·) :=
  ⟨by decide, by decide,
    (RefreshPropertyBrowser_tracks_selection Fixture.toInt ⟨[Fixture.torso, Fixture.lantern]⟩
      (some ⟨[⟨"1", false⟩, ⟨"2", true⟩]⟩) [1, 7] [Fixture.lantern] (by decide)).1
      (by decide)⟩

end ECEditor
